import Mathlib

/-!
Verification development for the Philippine location parser.

Strings are modelled as `List Char`.  JavaScript string operations
(`toLowerCase`, `trim`, `replace` with the concrete regular expressions
appearing in the source, `includes`, `startsWith`, `endsWith`) are embedded
as executable Lean functions.  All definitions are translated from the
repository sources:

* `hierarchical-location-index` (src/unnamed/part_009): `normalizeKey`,
  `buildIndexes`, `addCityAliases`, `findBarangay`, `findCity`,
  `findProvince`, ambiguity sets;
* `false-positive-filter` (src/unnamed/part_004): word sets, regex pattern
  families, `isFalsePositive`, `hasLocationContext`,
  `extractWordWithBoundaries`, `validateLocationCandidate`;
* `HierarchicalLocationParser` (src/unnamed/part_007): `scoreMatch`,
  `extractContexts`;
* `HierarchicalLocationParserV2` (src/unnamed/part_008): `findBestMatch`;
* `location-parser-v5.js`: `normalizeLocationFields`.

Scores that are IEEE doubles in the source (0.8, 0.7, ...) are modelled as
rationals; every claim settled here is insensitive to that choice.
-/

/-- Str abbreviates the model of a JavaScript string. -/
abbrev Str := List Char

/-- jsWs models the JavaScript `\s` character class, restricted to the
code points that can appear in this code base (ASCII whitespace and
NBSP). -/
def jsWs (c : Char) : Bool :=
  c.toNat = 32 || c.toNat = 9 || c.toNat = 10 || c.toNat = 11 ||
  c.toNat = 12 || c.toNat = 13 || c.toNat = 160

/-- lc models JavaScript `toLowerCase` on the ASCII range (the only
case-carrying characters exercised by the parser; non-ASCII letters are
erased to spaces by `normalizeKey` before case matters). -/
def lc (c : Char) : Char :=
  if 65 ≤ c.toNat ∧ c.toNat ≤ 90 then Char.ofNat (c.toNat + 32) else c

/-- isLowerAlnum tests membership in `[a-z0-9]`. -/
def isLowerAlnum (c : Char) : Bool :=
  (97 ≤ c.toNat && c.toNat ≤ 122) || (48 ≤ c.toNat && c.toNat ≤ 57)

/-- isRegexNl lists the characters that the JavaScript regex `.` does not
match. -/
def isRegexNl (c : Char) : Bool :=
  c.toNat = 10 || c.toNat = 13 || c.toNat = 8232 || c.toNat = 8233

/-- findClose scans for the closing parenthesis required by the lazy group
`\(.*?\)`: the first `)` wins, and an intervening newline (which `.` cannot
match) aborts the match. -/
def findClose : Str → Option Str
  | [] => none
  | c :: r => if c = ')' then some r else if isRegexNl c then none else findClose r

/-- tryParenMatch attempts the regex `\s*\(.*?\)\s*` at the head of the
list, returning the remainder after the whole match. -/
def tryParenMatch (l : Str) : Option Str :=
  match l.dropWhile jsWs with
  | '(' :: rest =>
    match findClose rest with
    | some rest2 => some (rest2.dropWhile jsWs)
    | none => none
  | _ => none

/-- removeParensFuel is the fuelled worker for the global replacement
`replace(/\s*\(.*?\)\s*/g, '')`: at each position try the match, otherwise
emit one character and advance.  Every step consumes at least one input
character, so fuel equal to the input length is always sufficient. -/
def removeParensFuel : Nat → Str → Str
  | 0, l => l
  | _ + 1, [] => []
  | fuel + 1, c :: rest =>
    match tryParenMatch (c :: rest) with
    | some rest2 => removeParensFuel fuel rest2
    | none => c :: removeParensFuel fuel rest

/-- removeParens models `replace(/\s*\(.*?\)\s*/g, '')`. -/
def removeParens (l : Str) : Str := removeParensFuel l.length l

/-- dropDotOnce consumes the optional dot of `^brgy\.?`. -/
def dropDotOnce : Str → Str
  | '.' :: r => r
  | l => l

/-- stripBrgyPfx models `replace(/^brgy\.?\s*/i, '')` on an already
lower-cased string. -/
def stripBrgyPfx (l : Str) : Str :=
  if (("brgy").toList).isPrefixOf l then (dropDotOnce (l.drop 4)).dropWhile jsWs else l

/-- stripBarangayPfx models `replace(/^barangay\s*/i, '')` on an already
lower-cased string. -/
def stripBarangayPfx (l : Str) : Str :=
  if (("barangay").toList).isPrefixOf l then (l.drop 8).dropWhile jsWs else l

/-- cityTailB decides whether `/\s+city$/` matches: the string ends with
`city` preceded by at least one whitespace character. -/
def cityTailB (l : Str) : Bool :=
  match l.reverse with
  | 'y' :: 't' :: 'i' :: 'c' :: c :: _ => jsWs c
  | _ => false

/-- stripCitySfx models `replace(/\s+city$/i, '')` on an already
lower-cased string (the leftmost match swallows the whole trailing
whitespace run). -/
def stripCitySfx (l : Str) : Str :=
  if cityTailB l then ((l.reverse.drop 4).dropWhile jsWs).reverse else l

/-- toSpaces models `replace(/[^a-z0-9\s]/g, ' ')`. -/
def toSpaces (l : Str) : Str :=
  l.map (fun c => if isLowerAlnum c || jsWs c then c else ' ')

/-- collapseWsAux is the worker for `replace(/\s+/g, ' ')`: each maximal
whitespace run is emitted as a single space; the flag records whether the
previous input character was whitespace. -/
def collapseWsAux : Bool → Str → Str
  | _, [] => []
  | prevWs, c :: rest =>
    if jsWs c then
      if prevWs then collapseWsAux true rest
      else ' ' :: collapseWsAux true rest
    else c :: collapseWsAux false rest

/-- collapseWs models `replace(/\s+/g, ' ')`. -/
def collapseWs (l : Str) : Str := collapseWsAux false l

/-- dropTrailWs removes the maximal trailing whitespace run. -/
def dropTrailWs : Str → Str
  | [] => []
  | c :: r =>
    match dropTrailWs r with
    | [] => if jsWs c then [] else [c]
    | r' => c :: r'

/-- jsTrim models JavaScript `trim()`. -/
def jsTrim (l : Str) : Str := dropTrailWs (l.dropWhile jsWs)

/-- normalizeKey is `PhilippineLocationIndex.normalizeKey`: lower-case,
drop parenthetical notes, drop `brgy.`/`barangay` prefixes, drop a `city`
suffix, replace the remaining special characters by spaces, collapse
whitespace and trim.  The `if (!text) return ''` guard of the source is
subsumed: the pipeline maps the empty string to itself. -/
def normalizeKey (l : Str) : Str :=
  jsTrim (collapseWs (toSpaces (stripCitySfx (stripBarangayPfx (stripBrgyPfx
    (removeParens (l.map lc)))))))

/-- goodKeyB holds for normalized keys on which none of the three anchored
rewrites of `normalizeKey` can fire a second time. -/
def goodKeyB (w : Str) : Bool :=
  !((("brgy").toList).isPrefixOf w) && !((("barangay").toList).isPrefixOf w) &&
  !(cityTailB w)

/-- jsIncludes models JavaScript `hay.includes(needle)` (contiguous
substring test). -/
def jsIncludes (hay needle : Str) : Bool :=
  (List.range (hay.length + 1)).any (fun i => needle.isPrefixOf (hay.drop i))

/-- replaceFirst models JavaScript `l.replace(sub, '')` for a plain string
pattern: only the first occurrence is removed. -/
def replaceFirst (sub l : Str) : Str :=
  match (List.range (l.length + 1)).find? (fun i => sub.isPrefixOf (l.drop i)) with
  | some i => l.take i ++ l.drop (i + sub.length)
  | none => l

/-- wordCharJS is the JavaScript `\w` class `[A-Za-z0-9_]`. -/
def wordCharJS (c : Char) : Bool :=
  (97 ≤ c.toNat && c.toNat ≤ 122) || (65 ≤ c.toNat && c.toNat ≤ 90) ||
  (48 ≤ c.toNat && c.toNat ≤ 57) || c = '_'

/-- optWC extends `wordCharJS` to out-of-range positions (JavaScript `\b`
treats the outside of the string as non-word). -/
def optWC : Option Char → Bool
  | some c => wordCharJS c
  | none => false

/-- wbAt decides a JavaScript `\b` word boundary between positions `i-1`
and `i` of `t`. -/
def wbAt (t : Str) (i : Nat) : Bool :=
  (match i with
   | 0 => false
   | j + 1 => optWC (t.get? j)) != optWC (t.get? i)

/-- isDigitB is the `\d` class. -/
def isDigitB (c : Char) : Bool := 48 ≤ c.toNat && c.toNat ≤ 57

/-- isLowerAlpha is the `[a-z]` class. -/
def isLowerAlpha (c : Char) : Bool := 97 ≤ c.toNat && c.toNat ≤ 122

/-- skipCls returns the position after the maximal run of class-`p`
characters starting at `i` (greedy `p*`). -/
def skipCls (p : Char → Bool) (t : Str) (i : Nat) : Nat :=
  i + ((t.drop i).takeWhile p).length

/-- clsPlus is greedy `p+`: the end of the maximal run, requiring at least
one character. -/
def clsPlus (p : Char → Bool) (t : Str) (i : Nat) : Option Nat :=
  if i < skipCls p t i then some (skipCls p t i) else none

/-- clsAt consumes exactly one class-`p` character. -/
def clsAt (p : Char → Bool) (t : Str) (i : Nat) : Option Nat :=
  match t.get? i with
  | some c => if p c then some (i + 1) else none
  | none => none

/-- litAt consumes the literal string `s` at position `i`. -/
def litAt (s t : Str) (i : Nat) : Option Nat :=
  if s.isPrefixOf (t.drop i) then some (i + s.length) else none

/-- wsPlus is greedy `\s+`. -/
def wsPlus (t : Str) (i : Nat) : Option Nat := clsPlus jsWs t i

/-- wsStar is greedy `\s*`. -/
def wsStar (t : Str) (i : Nat) : Nat := skipCls jsWs t i

/-- firstMatchM returns `matches[0]` of a non-global `match` call: the
leftmost position where the position matcher `f` succeeds, sliced out of
`t`. -/
def firstMatchM (f : Nat → Option Nat) (t : Str) : Option Str :=
  (List.range (t.length + 1)).findSome? (fun i =>
    (f i).map (fun e => (t.drop i).take (e - i)))

/-- testPat is `pattern.test(t)` for a position predicate. -/
def testPat (f : Str → Nat → Bool) (t : Str) : Bool :=
  (List.range (t.length + 1)).any (f t)

/-- FILIPINO_FUNCTION_WORDS is the Filipino function-word set of the
false-positive filter. -/
def FILIPINO_FUNCTION_WORDS : List Str :=
  (["parang", "iba", "ba", "pa", "na", "naman", "din", "daw", "raw",
    "sana", "kaya", "nang", "nga", "pala", "lang", "lamang",
    "kahit", "kung", "kasi", "pero", "at", "o", "ni", "ng", "sa",
    "rin", "dito", "rito", "doon", "roon", "dyan", "ryan",
    "saan", "bakit", "paano", "sino", "ano", "alin", "aling",
    "eh", "ha", "oo", "opo", "hindi", "huwag", "ayaw",
    "ako", "ikaw", "siya", "kami", "kayo", "sila", "tayo",
    "ko", "mo", "niya", "namin", "natin", "ninyo", "nila",
    "akin", "iyo", "kaniya", "amin", "atin", "inyo", "kanila",
    "kanya", "sarili", "nito", "nyan", "niyan", "noon", "ngayon",
    "wala", "meron", "may", "mayroon", "walang", "lahat",
    "bawat", "kada", "ilan", "marami", "konti", "kaunti",
    "isa", "dalawa", "tatlo", "apat", "lima", "anim", "pito", "walo", "siyam", "sampu",
    "sobra", "kulang", "tama", "mali", "totoo", "tunay", "talaga",
    "araw", "gabi", "umaga", "hapon", "tanghali", "madaling araw",
    "kahapon", "bukas", "ngayon", "kanina", "mamaya", "maya",
    "minsan", "lagi", "palagi", "madalas", "bihira",
    "oras", "minuto", "segundo", "linggo", "buwan", "taon",
    "sandali", "saglit", "ngayong araw", "kagabi", "kaninang umaga",
    "bago", "luma", "malaki", "maliit", "mabilis", "mabagal",
    "mahaba", "maikli", "matanda", "bata", "maganda", "pangit",
    "mahal", "mura", "mainit", "malamig", "mataas", "mababa",
    "malayo", "malapit", "magaan", "mabigat", "masaya", "malungkot",
    "gawa", "sabi", "kain", "inom", "tulog", "gising", "lakad",
    "takbo", "laro", "trabaho", "aral", "basa", "sulat", "bili",
    "bayad", "sakay", "baba", "pasok", "labas", "dating", "alis",
    "uwi", "balik", "punta", "tuloy", "tigil", "simula", "tapos",
    "dahil", "sapagkat", "subalit", "datapwat", "samantala",
    "gayunman", "gayunpaman", "bagamat", "ngunit", "upang", "nang",
    "kapag", "pag", "kung", "sakali", "baka", "siguro", "marahil",
    "naku", "hay", "hala", "aba", "sus", "diyos ko", "grabe", "sayang",
    "sige", "tara", "halika", "sandali", "teka", "hintay", "tignan"] : List String).map
    String.toList

/-- ENGLISH_FALSE_POSITIVES is the English collision word set of the
false-positive filter. -/
def ENGLISH_FALSE_POSITIVES : List Str :=
  (["real", "goal", "goals", "usual", "usually", "face", "facebook",
    "book", "books", "load", "loading", "loaded", "upload",
    "download", "reload", "alone", "loan", "loans",
    "can", "cant", "cannot", "ban", "bans", "banned",
    "pan", "pans", "tan", "tans", "man", "men",
    "new", "news", "newer", "newest", "renew",
    "lag", "lagging", "lags", "ping", "pings", "pinged",
    "plan", "plans", "planning", "planned",
    "pass", "passed", "passing", "password",
    "data", "database", "update", "updates",
    "service", "services", "servicing",
    "announce", "announced", "announcement", "announcing",
    "register", "registered", "registration", "registering",
    "apply", "applied", "application", "applying",
    "pay", "paid", "payment", "paying",
    "say", "said", "saying", "says",
    "down", "up", "online", "offline", "active", "inactive",
    "good", "bad", "better", "best", "worse", "worst",
    "same", "different", "similar", "exact",
    "day", "days", "daily", "today", "yesterday", "tomorrow",
    "week", "weeks", "weekly", "month", "months", "monthly",
    "year", "years", "yearly", "annual", "annually"] : List String).map
    String.toList

/-- CONTEXT_DEPENDENT_WORDS lists place names that are also ordinary
words. -/
def CONTEXT_DEPENDENT_WORDS : List Str :=
  (["aurora", "victoria", "angeles", "carmen", "esperanza",
    "florida", "jordan", "leon", "mercedes", "salvador",
    "santiago", "trinidad", "valencia"] : List String).map String.toList

/-- tvp1 is `/^(nag|mag|um|in|na|ma|i|ipa|pag|pang|ka)/i` tested on the
lower-cased word. -/
def tvp1 (w : Str) : Bool :=
  (["nag", "mag", "um", "in", "na", "ma", "i", "ipa", "pag", "pang", "ka"] :
    List String).any (fun p => p.toList.isPrefixOf w)

/-- tvp2 is `/^(nag|mag)(ka|pa|si)/i`. -/
def tvp2 (w : Str) : Bool :=
  ((["nag", "mag"] : List String).any (fun p => p.toList.isPrefixOf w)) &&
  ((["ka", "pa", "si"] : List String).any (fun p => p.toList.isPrefixOf (w.drop 3)))

/-- tvp3 is `/(in|an|han)$/i`. -/
def tvp3 (w : Str) : Bool :=
  (["in", "an", "han"] : List String).any (fun s => s.toList.isSuffixOf w)

/-- tvp4 is `/(um|in).*?(in|an)$/i`: an occurrence of `um` or `in`, then
non-newline characters, then `in` or `an` closing the word at least two
positions later. -/
def tvp4 (w : Str) : Bool :=
  (2 ≤ w.length) &&
  ((["in", "an"] : List String).any (fun s => s.toList.isPrefixOf (w.drop (w.length - 2)))) &&
  ((List.range (w.length + 1)).any (fun i =>
    (i + 2 ≤ w.length - 2) &&
    ((["um", "in"] : List String).any (fun s => s.toList.isPrefixOf (w.drop i))) &&
    (((w.drop (i + 2)).take (w.length - 2 - (i + 2))).all (fun c => !isRegexNl c))))

/-- tagalogVerbAny is `TAGALOG_VERB_PATTERNS.some(p => p.test(w))`. -/
def tagalogVerbAny (w : Str) : Bool := tvp1 w || tvp2 w || tvp3 w || tvp4 w

/-- nlp1 is `/\b(nag|mag|um)\s*\w+/i` as a position matcher. -/
def nlp1 (t : Str) (i : Nat) : Option Nat :=
  if wbAt t i then
    (["nag", "mag", "um"] : List String).findSome? (fun a =>
      (litAt a.toList t i).bind (fun j => clsPlus wordCharJS t (wsStar t j)))
  else none

/-- nlp2 is `/\b\w+ing\b/i`: a maximal word-character run of length at
least four ending in `ing`. -/
def nlp2 (t : Str) (i : Nat) : Option Nat :=
  if wbAt t i && optWC (t.get? i) then
    if 4 ≤ skipCls wordCharJS t i - i &&
       (("ing").toList).isPrefixOf (t.drop (skipCls wordCharJS t i - 3)) then
      some (skipCls wordCharJS t i)
    else none
  else none

/-- nlp3 is `/\b\w+ed\b/i`. -/
def nlp3 (t : Str) (i : Nat) : Option Nat :=
  if wbAt t i && optWC (t.get? i) then
    if 3 ≤ skipCls wordCharJS t i - i &&
       (("ed").toList).isPrefixOf (t.drop (skipCls wordCharJS t i - 2)) then
      some (skipCls wordCharJS t i)
    else none
  else none

/-- nlp4 is `/@\w+/`. -/
def nlp4 (t : Str) (i : Nat) : Option Nat :=
  (clsAt (fun c => c = '@') t i).bind (fun j => clsPlus wordCharJS t j)

/-- nlp5 is `/#\w+/`. -/
def nlp5 (t : Str) (i : Nat) : Option Nat :=
  (clsAt (fun c => c = '#') t i).bind (fun j => clsPlus wordCharJS t j)

/-- nlp6 is `/\.(com|net|org|ph)/i`. -/
def nlp6 (t : Str) (i : Nat) : Option Nat :=
  (clsAt (fun c => c = '.') t i).bind (fun j =>
    (["com", "net", "org", "ph"] : List String).findSome? (fun a => litAt a.toList t j))

/-- nlp7 is `/https?:\/\//i`. -/
def nlp7 (t : Str) (i : Nat) : Option Nat :=
  (litAt (("http").toList) t i).bind (fun j =>
    match litAt (("s://").toList) t j with
    | some e => some e
    | none => litAt (("://").toList) t j)

/-- nlp8 is `/\b\d{1,2}(am|pm)\b/i`: greedy `{1,2}` tries two digits
first, backtracking to one. -/
def nlp8 (t : Str) (i : Nat) : Option Nat :=
  if wbAt t i then
    match (clsAt isDigitB t i).bind (fun j =>
        (clsAt isDigitB t j).bind (fun k =>
          ((["am", "pm"] : List String).findSome? (fun a => litAt a.toList t k)).bind
            (fun e => if wbAt t e then some e else none))) with
    | some e => some e
    | none =>
      (clsAt isDigitB t i).bind (fun j =>
        ((["am", "pm"] : List String).findSome? (fun a => litAt a.toList t j)).bind
          (fun e => if wbAt t e then some e else none))
  else none

/-- nlp9 is `/\b(jan|feb|mar|apr|may|jun|jul|aug|sep|oct|nov|dec)\s+\d+/i`. -/
def nlp9 (t : Str) (i : Nat) : Option Nat :=
  if wbAt t i then
    (["jan", "feb", "mar", "apr", "may", "jun", "jul", "aug", "sep", "oct",
      "nov", "dec"] : List String).findSome? (fun m =>
        (litAt m.toList t i).bind (fun j =>
          (wsPlus t j).bind (fun k => clsPlus isDigitB t k)))
  else none

/-- nlp10 is `/\bseptember\s+\d+/i`. -/
def nlp10 (t : Str) (i : Nat) : Option Nat :=
  if wbAt t i then
    (litAt (("september").toList) t i).bind (fun j =>
      (wsPlus t j).bind (fun k => clsPlus isDigitB t k))
  else none

/-- nlp11 is `/\b(down|offline|slow|lag|delay|issue|problem|error)/i`. -/
def nlp11 (t : Str) (i : Nat) : Option Nat :=
  if wbAt t i then
    (["down", "offline", "slow", "lag", "delay", "issue", "problem",
      "error"] : List String).findSome? (fun a => litAt a.toList t i)
  else none

/-- nlp12 is `/\b(walang|no|without)\s+(internet|connection|service|signal)/i`. -/
def nlp12 (t : Str) (i : Nat) : Option Nat :=
  if wbAt t i then
    (["walang", "no", "without"] : List String).findSome? (fun a =>
      (litAt a.toList t i).bind (fun j =>
        (wsPlus t j).bind (fun k =>
          (["internet", "connection", "service", "signal"] : List String).findSome?
            (fun b => litAt b.toList t k))))
  else none

/-- NON_LOCATION_PATTERNS collects the twelve non-location patterns in
source order. -/
def NON_LOCATION_PATTERNS : List (Str → Nat → Option Nat) :=
  [nlp1, nlp2, nlp3, nlp4, nlp5, nlp6, nlp7, nlp8, nlp9, nlp10, nlp11, nlp12]

/-- lcp1 is `/\b(taga|galing|from|sa|nasa|dito|rito|nandito|narito)\s+/i`. -/
def lcp1 (t : Str) (i : Nat) : Bool :=
  wbAt t i &&
  ((["taga", "galing", "from", "sa", "nasa", "dito", "rito", "nandito",
     "narito"] : List String).any (fun a =>
      ((litAt a.toList t i).bind (fun j => wsPlus t j)).isSome))

/-- lcp2 is `/\b(here\s+in|located\s+at|located\s+in|based\s+in)\s+/i`. -/
def lcp2 (t : Str) (i : Nat) : Bool :=
  wbAt t i &&
  ((((litAt (("here").toList) t i).bind (fun j => wsPlus t j)).bind (fun j =>
      litAt (("in").toList) t j) |>.bind (fun j => wsPlus t j)).isSome ||
   (((litAt (("located").toList) t i).bind (fun j => wsPlus t j)).bind (fun j =>
      match litAt (("at").toList) t j with
      | some e => some e
      | none => litAt (("in").toList) t j) |>.bind (fun j => wsPlus t j)).isSome ||
   (((litAt (("based").toList) t i).bind (fun j => wsPlus t j)).bind (fun j =>
      litAt (("in").toList) t j) |>.bind (fun j => wsPlus t j)).isSome)

/-- lcp3 is `/\b(address|location|lugar|area|place)\s*[:=]\s*/i`. -/
def lcp3 (t : Str) (i : Nat) : Bool :=
  wbAt t i &&
  ((["address", "location", "lugar", "area", "place"] : List String).any (fun a =>
    ((litAt a.toList t i).bind (fun j =>
      clsAt (fun c => c = ':' || c = '=') t (wsStar t j))).isSome))

/-- lcp4 is `/\b([a-z]+)\s+area\b/i`. -/
def lcp4 (t : Str) (i : Nat) : Bool :=
  wbAt t i &&
  (match (clsPlus isLowerAlpha t i).bind (fun j =>
      (wsPlus t j).bind (fun k => litAt (("area").toList) t k)) with
   | some e => wbAt t e
   | none => false)

/-- lcp5 is `/\b(here|dito|rito)\b/i`. -/
def lcp5 (t : Str) (i : Nat) : Bool :=
  wbAt t i &&
  ((["here", "dito", "rito"] : List String).any (fun a =>
    match litAt a.toList t i with
    | some e => wbAt t e
    | none => false))

/-- lcp6 is `/\b(?:around|near)\s+[a-z]/i`. -/
def lcp6 (t : Str) (i : Nat) : Bool :=
  wbAt t i &&
  ((["around", "near"] : List String).any (fun a =>
    (((litAt a.toList t i).bind (fun j => wsPlus t j)).bind (fun k =>
      clsAt isLowerAlpha t k)).isSome))

/-- lcp7 is `/\b(?:living|staying|working)\s+in\s+[a-z]/i`. -/
def lcp7 (t : Str) (i : Nat) : Bool :=
  wbAt t i &&
  ((["living", "staying", "working"] : List String).any (fun a =>
    (((((litAt a.toList t i).bind (fun j => wsPlus t j)).bind (fun j =>
      litAt (("in").toList) t j)).bind (fun j => wsPlus t j)).bind (fun k =>
      clsAt isLowerAlpha t k)).isSome))

/-- lcp8 is `/\b(city|municipality|province|region|barangay|brgy)\s+/i`. -/
def lcp8 (t : Str) (i : Nat) : Bool :=
  wbAt t i &&
  ((["city", "municipality", "province", "region", "barangay", "brgy"] :
    List String).any (fun a =>
      ((litAt a.toList t i).bind (fun j => wsPlus t j)).isSome))

/-- lcp9 is `/\b(city|municipality|province|region|barangay|brgy)$/i`. -/
def lcp9 (t : Str) (i : Nat) : Bool :=
  wbAt t i &&
  ((["city", "municipality", "province", "region", "barangay", "brgy"] :
    List String).any (fun a =>
      match litAt a.toList t i with
      | some e => e = t.length
      | none => false))

/-- lcp10 is `/,\s*philippines$/i`. -/
def lcp10 (t : Str) (i : Nat) : Bool :=
  (match (clsAt (fun c => c = ',') t i).bind (fun j =>
      litAt (("philippines").toList) t (wsStar t j)) with
   | some e => e = t.length
   | none => false)

/-- lcp11 is `/\b(north|south|east|west|northern|southern|eastern|western)\s+/i`. -/
def lcp11 (t : Str) (i : Nat) : Bool :=
  wbAt t i &&
  ((["north", "south", "east", "west", "northern", "southern", "eastern",
     "western"] : List String).any (fun a =>
      ((litAt a.toList t i).bind (fun j => wsPlus t j)).isSome))

/-- lcp12 is `/\b(upper|lower|central|downtown|suburban)\s+/i`. -/
def lcp12 (t : Str) (i : Nat) : Bool :=
  wbAt t i &&
  ((["upper", "lower", "central", "downtown", "suburban"] : List String).any
    (fun a => ((litAt a.toList t i).bind (fun j => wsPlus t j)).isSome))

/-- LOCATION_CONTEXT_PATTERNS collects the location-context patterns in
source order. -/
def LOCATION_CONTEXT_PATTERNS : List (Str → Nat → Bool) :=
  [lcp1, lcp2, lcp3, lcp4, lcp5, lcp6, lcp7, lcp8, lcp9, lcp10, lcp11, lcp12]

/-- isFalsePositive is the filter's main predicate, with the source's
check order: function words, English collisions, Tagalog verb shapes,
context-dependent words against the location-context patterns, then the
non-location patterns whose first match contains the word. -/
def isFalsePositive (word fullText : Str) : Bool :=
  if word.isEmpty then true
  else
    if FILIPINO_FUNCTION_WORDS.contains (jsTrim (word.map lc)) then true
    else if ENGLISH_FALSE_POSITIVES.contains (jsTrim (word.map lc)) then true
    else if tagalogVerbAny (jsTrim (word.map lc)) then true
    else if CONTEXT_DEPENDENT_WORDS.contains (jsTrim (word.map lc)) then
      !(LOCATION_CONTEXT_PATTERNS.any (fun f => testPat f (fullText.map lc)))
    else
      NON_LOCATION_PATTERNS.any (fun f =>
        match firstMatchM (f (fullText.map lc)) (fullText.map lc) with
        | some m => jsIncludes m (jsTrim (word.map lc))
        | none => false)

/-- hlc1 is `/\b(taga|dito\s+sa|nasa)\s+\w+/i`. -/
def hlc1 (t : Str) (i : Nat) : Bool :=
  wbAt t i &&
  (match (match litAt (("taga").toList) t i with
          | some j => some j
          | none =>
            match ((litAt (("dito").toList) t i).bind (fun j => wsPlus t j)).bind
                (fun j => litAt (("sa").toList) t j) with
            | some j => some j
            | none => litAt (("nasa").toList) t i) with
   | some j => ((wsPlus t j).bind (fun k => clsPlus wordCharJS t k)).isSome
   | none => false)

/-- hlc2 is `/\w+\s+area\b/i` (no leading boundary). -/
def hlc2 (t : Str) (i : Nat) : Bool :=
  (match (clsPlus wordCharJS t i).bind (fun j =>
      (wsPlus t j).bind (fun k => litAt (("area").toList) t k)) with
   | some e => wbAt t e
   | none => false)

/-- hlc3 is `/\b(location|address)\s*[:=]/i`. -/
def hlc3 (t : Str) (i : Nat) : Bool :=
  wbAt t i &&
  ((["location", "address"] : List String).any (fun a =>
    ((litAt a.toList t i).bind (fun j =>
      clsAt (fun c => c = ':' || c = '=') t (wsStar t j))).isSome))

/-- hasLocationContext is the filter's context predicate: the three
special checks, then the shared location-context pattern family. -/
def hasLocationContext (text : Str) : Bool :=
  if testPat hlc1 (text.map lc) then true
  else if testPat hlc2 (text.map lc) then true
  else if testPat hlc3 (text.map lc) then true
  else LOCATION_CONTEXT_PATTERNS.any (fun f => testPat f (text.map lc))

/-- boundaryPunct is the boundary class `/[\s,.\-!?;:]/` used by
`extractWordWithBoundaries`. -/
def boundaryPunct (c : Char) : Bool :=
  jsWs c || c = ',' || c = '.' || c = '-' || c = '!' || c = '?' || c = ';' || c = ':'

/-- bMatchAt decides whether the case-insensitive regex built from the
literal `word` with `\b` anchors on both sides matches `text` at
position `i` (the extractor's candidates consist of letters, digits and
spaces, with word characters at both ends, so the interpolated pattern is
a literal). -/
def bMatchAt (text word : Str) (i : Nat) : Bool :=
  (((text.drop i).take word.length).map lc == word.map lc) &&
  (match i with
   | 0 => true
   | j + 1 => !optWC (text.get? j)) &&
  (!optWC (text.get? (i + word.length)))

/-- firstBIdx is `text.match(new RegExp('\\b' + word + '\\b', 'i')).index`:
the leftmost boundary match of the literal word. -/
def firstBIdx (text word : Str) : Option Nat :=
  (List.range (text.length + 1)).find? (fun i => bMatchAt text word i)

/-- extractWordWithBoundaries finds the first boundary match of `word` in
`text` and additionally requires the characters on each side (a space at a
string edge) to lie in the boundary punctuation class, returning the
matched slice. -/
def extractWordWithBoundaries (text word : Str) : Option Str :=
  match firstBIdx text word with
  | none => none
  | some i =>
    if boundaryPunct (match i with
        | 0 => ' '
        | j + 1 => (text.get? j).getD ' ') &&
       boundaryPunct (if i + word.length < text.length then
          (text.get? (i + word.length)).getD ' '
        else ' ') then
      some ((text.drop i).take word.length)
    else none

/-- VRes models the `{isValid, reason}` / `{isValid, candidate}` result
objects of `validateLocationCandidate`. -/
inductive VRes
  | invalid (reason : Str)
  | valid (extracted : Str)
deriving DecidableEq

/-- validateLocationCandidate chains the four checks of the source: length,
false-positive filter, location context of the full text, and word-boundary
extraction. -/
def validateLocationCandidate (candidate fullText : Str) : VRes :=
  if candidate.isEmpty || candidate.length < 3 then .invalid (("Too short").toList)
  else if isFalsePositive candidate fullText then
    .invalid (("Common word false positive").toList)
  else if !hasLocationContext fullText then .invalid (("No location context").toList)
  else
    match extractWordWithBoundaries fullText candidate with
    | none => .invalid (("Not a complete word").toList)
    | some w => .valid w

/-- occursAsToken states that `word` occurs in `text` (case-insensitively)
as a complete token: each side is a string edge or a whitespace/punctuation
character. -/
def occursAsToken (word text : Str) : Prop :=
  ∃ i, ((text.drop i).take word.length).map lc = word.map lc ∧
    (0 < i → boundaryPunct ((text.get? (i - 1)).getD ' ') = true) ∧
    (i + word.length < text.length →
      boundaryPunct ((text.get? (i + word.length)).getD ' ') = true)

/-- AdminUnit is one entry of the barangay index. -/
structure AdminUnit where
  barangay : Str
  city : Str
  province : Str
  region : Str
  regionCode : Str
deriving DecidableEq

/-- CityInfo is one entry of the city index. -/
structure CityInfo where
  city : Str
  province : Str
  region : Str
  regionCode : Str
  barangays : List Str
deriving DecidableEq

/-- ProvinceInfo is one entry of the province index. -/
structure ProvinceInfo where
  province : Str
  region : Str
  regionCode : Str
  cities : List Str
deriving DecidableEq

/-- Table models a JavaScript object used as a map: an association list in
key insertion order with unique keys. -/
abbrev Table (α : Type) := List (Str × α)

/-- lookupTbl is property lookup. -/
def lookupTbl {α : Type} (t : Table α) (k : Str) : Option α :=
  (t.find? (fun e => e.1 == k)).map (·.2)

/-- setTbl is property assignment: an existing key keeps its insertion
position, a new key is appended. -/
def setTbl {α : Type} (t : Table α) (k : Str) (v : α) : Table α :=
  if (t.find? (fun e => e.1 == k)).isSome then
    t.map (fun e => if e.1 == k then (e.1, v) else e)
  else t ++ [(k, v)]

/-- pushTbl appends `v` to the bucket at `k`, creating the bucket first
when absent (the `if (!idx[key]) idx[key] = []; idx[key].push(v)`
idiom). -/
def pushTbl {α : Type} (t : Table (List α)) (k : Str) (v : α) : Table (List α) :=
  match lookupTbl t k with
  | some b => setTbl t k (b ++ [v])
  | none => t ++ [(k, [v])]

/-- updTbl maps a function over the value at `k` (in-place object
mutation). -/
def updTbl {α : Type} (t : Table α) (k : Str) (f : α → α) : Table α :=
  t.map (fun e => if e.1 == k then (e.1, f e.2) else e)

/-- addKey models `Set.add`. -/
def addKey (s : List Str) (k : Str) : List Str :=
  if s.contains k then s else s ++ [k]

/-- LocationIndex is the state built by `PhilippineLocationIndex`. -/
structure LocationIndex where
  barangayIndex : Table (List AdminUnit)
  cityIndex : Table (List CityInfo)
  provinceIndex : Table ProvinceInfo
  ambiguousBarangays : List Str
  ambiguousCities : List Str
deriving DecidableEq

/-- GazCity is one city/municipality of the raw dataset. -/
structure GazCity where
  name : Str
  barangayList : List Str

/-- GazProvince is one province of the raw dataset. -/
structure GazProvince where
  name : Str
  municipalityList : List GazCity

/-- GazRegion is one region of the raw dataset. -/
structure GazRegion where
  code : Str
  regionName : Str
  provinceList : List GazProvince

/-- Gazetteer is the raw hierarchical dataset, in iteration order. -/
abbrev Gazetteer := List GazRegion

/-- pushBrgy pushes one barangay entry onto the barangay index (the
`barangayIndex[barangayKey].push({...})` statement of `buildIndexes`). -/
def pushBrgy (regionCode regionName provinceName cityName bName : Str)
    (idx : LocationIndex) : LocationIndex :=
  let u : AdminUnit :=
    { barangay := bName, city := cityName, province := provinceName,
      region := regionName, regionCode := regionCode }
  { idx with barangayIndex := pushTbl idx.barangayIndex (normalizeKey bName) u }

/-- brgyAmbig records the barangay key as ambiguous when its bucket now
has more than one element. -/
def brgyAmbig (bKey : Str) (idx : LocationIndex) : LocationIndex :=
  match lookupTbl idx.barangayIndex bKey with
  | some bucket =>
    if 1 < bucket.length then
      { idx with ambiguousBarangays := addKey idx.ambiguousBarangays bKey }
    else idx
  | none => idx

/-- addBarangay is the barangay step of `buildIndexes`: push the entry and
record ambiguity. -/
def addBarangay (regionCode regionName provinceName cityName : Str)
    (idx : LocationIndex) (bName : Str) : LocationIndex :=
  brgyAmbig (normalizeKey bName)
    (pushBrgy regionCode regionName provinceName cityName bName idx)

/-- provAddCityName appends the city name to its province's city list (the
`provinceIndex[provinceKey].cities.push(cityName)` mutation). -/
def provAddCityName (provinceKey cityName : Str) (idx : LocationIndex) :
    LocationIndex :=
  let f : ProvinceInfo → ProvinceInfo :=
    fun pi => { pi with cities := pi.cities ++ [cityName] }
  { idx with provinceIndex := updTbl idx.provinceIndex provinceKey f }

/-- pushCityInfo pushes one city entry onto the city index. -/
def pushCityInfo (regionCode regionName provinceName : Str) (c : GazCity)
    (idx : LocationIndex) : LocationIndex :=
  let ci : CityInfo :=
    { city := c.name, province := provinceName, region := regionName,
      regionCode := regionCode, barangays := c.barangayList }
  { idx with cityIndex := pushTbl idx.cityIndex (normalizeKey c.name) ci }

/-- cityAmbig records the city key as ambiguous when its bucket now has
more than one element. -/
def cityAmbig (cityKey : Str) (idx : LocationIndex) : LocationIndex :=
  match lookupTbl idx.cityIndex cityKey with
  | some bucket =>
    if 1 < bucket.length then
      { idx with ambiguousCities := addKey idx.ambiguousCities cityKey }
    else idx
  | none => idx

/-- addCity is the city step of `buildIndexes`: record the city under its
province, push the city-index entry, track ambiguity, then fold the
barangays. -/
def addCity (regionCode regionName provinceName provinceKey : Str)
    (idx : LocationIndex) (c : GazCity) : LocationIndex :=
  c.barangayList.foldl (addBarangay regionCode regionName provinceName c.name)
    (cityAmbig (normalizeKey c.name)
      (pushCityInfo regionCode regionName provinceName c
        (provAddCityName provinceKey c.name idx)))

/-- setProvinceInfo binds the province-index entry (a same-keyed province
overwrites the earlier entry, as object assignment does). -/
def setProvinceInfo (regionCode regionName : Str) (p : GazProvince)
    (idx : LocationIndex) : LocationIndex :=
  let pInfo : ProvinceInfo :=
    { province := p.name, region := regionName, regionCode := regionCode,
      cities := [] }
  { idx with provinceIndex := setTbl idx.provinceIndex (normalizeKey p.name) pInfo }

/-- addProvince is the province step of `buildIndexes`. -/
def addProvince (regionCode regionName : Str) (idx : LocationIndex)
    (p : GazProvince) : LocationIndex :=
  p.municipalityList.foldl (addCity regionCode regionName p.name (normalizeKey p.name))
    (setProvinceInfo regionCode regionName p idx)

/-- addRegion folds the provinces of one region. -/
def addRegion (idx : LocationIndex) (r : GazRegion) : LocationIndex :=
  r.provinceList.foldl (addProvince r.code r.regionName) idx

/-- emptyIndex is the constructor state before `buildIndexes`. -/
def emptyIndex : LocationIndex := ⟨[], [], [], [], []⟩

/-- cityAliasesOf collects the `cityAliases` list of `addCityAliases`:
`CITY OF X` entries alias `x city` and `x`, `X CITY` entries alias `x`,
and names without `CITY` alias `x city` (which renormalizes to the
original key). -/
def cityAliasesOf (t : Table (List CityInfo)) : List (Str × Str) :=
  t.foldl (fun acc e =>
    match e.2 with
    | [] => acc
    | ci :: _ =>
      let acc1 := if (("CITY OF ").toList).isPrefixOf ci.city then
          acc ++ [(normalizeKey (replaceFirst (("CITY OF ").toList) ci.city ++
                    (" CITY").toList), e.1),
                  (normalizeKey (replaceFirst (("CITY OF ").toList) ci.city), e.1)]
        else acc
      let acc2 := if ((" CITY").toList).isSuffixOf ci.city then
          acc1 ++ [(normalizeKey (replaceFirst ((" CITY").toList) ci.city), e.1)]
        else acc1
      if !(jsIncludes ci.city (("CITY").toList)) &&
         !((("CITY OF ").toList).isPrefixOf ci.city) then
        acc2 ++ [(normalizeKey (ci.city ++ (" CITY").toList), e.1)]
      else acc2)
    []

/-- applyAliases applies `cityAliases` entries in order: a new key is bound
to the target's current bucket, an existing key is left alone (a missing
target binds `undefined` in the source, which is observationally absent,
so it is modelled as a no-op). -/
def applyAliases (t : Table (List CityInfo)) (aliases : List (Str × Str)) :
    Table (List CityInfo) :=
  aliases.foldl (fun t a =>
    match lookupTbl t a.1 with
    | some _ => t
    | none =>
      match lookupTbl t a.2 with
      | some b => t ++ [(a.1, b)]
      | none => t) t

/-- commonAliases is the fixed abbreviation/nickname table of
`addCityAliases`, in source order. -/
def commonAliases : List (Str × Str) :=
  ([("qc", "quezon city"),
    ("bgc", "taguig"),
    ("fort bonifacio", "taguig"),
    ("gensan", "general santos"),
    ("cdo", "cagayan de oro"),
    ("makati city", "city of makati"),
    ("taguig city", "taguig"),
    ("gen trias", "general trias"),
    ("general trias", "general trias city"),
    ("montalban", "rodriguez montalban"),
    ("rodriguez", "rodriguez montalban"),
    ("north caloocan", "caloocan city"),
    ("south caloocan", "caloocan city"),
    ("caloocan", "caloocan city"),
    ("las pinas", "las pinas city"),
    ("san juan", "san juan city"),
    ("pasay", "pasay city"),
    ("pasig", "pasig city"),
    ("marikina", "marikina city"),
    ("muntinlupa", "muntinlupa city"),
    ("paranaque", "paranaque city"),
    ("valenzuela", "valenzuela city"),
    ("malabon", "malabon city"),
    ("navotas", "navotas city"),
    ("mandaluyong", "mandaluyong city"),
    ("davao", "davao city"),
    ("cebu", "cebu city"),
    ("zamboanga", "zamboanga city"),
    ("bacolod", "bacolod city"),
    ("iloilo", "iloilo city"),
    ("cagayan de oro", "cagayan de oro city"),
    ("general santos", "general santos city")] : List (String × String)).map
    (fun a => (a.1.toList, a.2.toList))

/-- applyCommonAliases binds each abbreviation to the bucket of its
normalized canonical name when that bucket exists (an unconditional
assignment in the source). -/
def applyCommonAliases (t : Table (List CityInfo)) : Table (List CityInfo) :=
  commonAliases.foldl (fun t a =>
    match lookupTbl t (normalizeKey a.2) with
    | some b => setTbl t a.1 b
    | none => t) t

/-- addCityAliases is the alias pass run at the end of `buildIndexes`. -/
def addCityAliases (idx : LocationIndex) : LocationIndex :=
  { idx with cityIndex :=
      applyCommonAliases (applyAliases idx.cityIndex (cityAliasesOf idx.cityIndex)) }

/-- buildIndexes builds the full index from the raw dataset. -/
def buildIndexes (g : Gazetteer) : LocationIndex :=
  addCityAliases (g.foldl addRegion emptyIndex)

/-- isAmbiguousBarangay is the ambiguity-set lookup. -/
def isAmbiguousBarangay (idx : LocationIndex) (name : Str) : Bool :=
  idx.ambiguousBarangays.contains (normalizeKey name)

/-- isAmbiguousCity is the ambiguity-set lookup at city level. -/
def isAmbiguousCity (idx : LocationIndex) (name : Str) : Bool :=
  idx.ambiguousCities.contains (normalizeKey name)

/-- findBarangay is `PhilippineLocationIndex.findBarangay`: a unique bucket
entry is returned outright; an ambiguous bucket is filtered by the city
hint (normalized-key equality or substring containment in either
direction), then by the province hint (equality or containment of the hint
in the entry's key), and otherwise yields null. -/
def findBarangay (idx : LocationIndex) (barangayName : Str)
    (cityContext provinceContext : Option Str) : Option AdminUnit :=
  match lookupTbl idx.barangayIndex (normalizeKey barangayName) with
  | none => none
  | some ms =>
    if ms.length = 0 then none
    else if ms.length = 1 then ms.head?
    else
      let byCity : Option AdminUnit :=
        match cityContext with
        | some cc =>
          ms.find? (fun m =>
            (normalizeKey m.city == normalizeKey cc) ||
            jsIncludes (normalizeKey m.city) (normalizeKey cc) ||
            jsIncludes (normalizeKey cc) (normalizeKey m.city))
        | none => none
      match byCity with
      | some m => some m
      | none =>
        let byProvince : Option AdminUnit :=
          match provinceContext with
          | some pc =>
            ms.find? (fun m =>
              (normalizeKey m.province == normalizeKey pc) ||
              jsIncludes (normalizeKey m.province) (normalizeKey pc))
          | none => none
        match byProvince with
        | some m => some m
        | none => none

/-- stripCitySfxCI is `cityName.replace(/\s+city$/i, '')` on a string of
arbitrary case. -/
def stripCitySfxCI (l : Str) : Str :=
  if cityTailB (l.map lc) then ((l.reverse.drop 4).dropWhile jsWs).reverse else l

/-- priorityCities is the fixed priority table of `findCity`. -/
def priorityCities : Table Str :=
  ([("bacolod", "NEGROS OCCIDENTAL"),
    ("san juan", "NATIONAL CAPITAL REGION"),
    ("taguig", "TAGUIG - PATEROS"),
    ("makati", "NATIONAL CAPITAL REGION"),
    ("quezon", "NATIONAL CAPITAL REGION")] : List (String × String)).map
    (fun a => (a.1.toList, a.2.toList))

/-- findCity is `PhilippineLocationIndex.findCity`: exact key, then the
name with `City` appended (when `city` is absent from the name), then the
name with its `city` suffix removed; a unique match is returned, the
province hint filters ambiguous matches, the priority table is consulted,
and otherwise the first match is returned. -/
def findCity (idx : LocationIndex) (cityName : Str)
    (provinceContext : Option Str) : Option CityInfo :=
  let m0 := lookupTbl idx.cityIndex (normalizeKey cityName)
  let m1 :=
    match m0 with
    | some b => some b
    | none =>
      if !(jsIncludes (cityName.map lc) (("city").toList)) then
        lookupTbl idx.cityIndex (normalizeKey (cityName ++ (" City").toList))
      else none
  let m2 :=
    match m1 with
    | some b => some b
    | none =>
      if jsIncludes (cityName.map lc) (("city").toList) then
        lookupTbl idx.cityIndex (normalizeKey (stripCitySfxCI cityName))
      else none
  match m2 with
  | none => none
  | some ms =>
    if ms.length = 0 then none
    else if ms.length = 1 then ms.head?
    else
      let byProvince : Option CityInfo :=
        match provinceContext with
        | some pc =>
          ms.find? (fun m =>
            (normalizeKey m.province == normalizeKey pc) ||
            jsIncludes (normalizeKey m.province) (normalizeKey pc))
        | none => none
      match byProvince with
      | some m => some m
      | none =>
        match lookupTbl priorityCities (normalizeKey cityName) with
        | some prov =>
          match ms.find? (fun m => jsIncludes m.province prov) with
          | some m => some m
          | none => ms.head?
        | none => ms.head?

/-- findProvince is the direct province lookup. -/
def findProvince (idx : LocationIndex) (provinceName : Str) : Option ProvinceInfo :=
  lookupTbl idx.provinceIndex (normalizeKey provinceName)

/-- validateHierarchy is `PhilippineLocationIndex.validateHierarchy`. -/
def validateHierarchy (idx : LocationIndex)
    (barangay city province : Option Str) : Bool :=
  (match barangay, city with
   | some b, some c =>
     match lookupTbl idx.barangayIndex (normalizeKey b) with
     | none => false
     | some ms => ms.any (fun m => normalizeKey m.city == normalizeKey c)
   | _, _ => true) &&
  (match city, province with
   | some c, some p =>
     match lookupTbl idx.cityIndex (normalizeKey c) with
     | none => false
     | some ms => ms.any (fun m => normalizeKey m.province == normalizeKey p)
   | _, _ => true)

/-- MatchType is the `type` argument of `scoreMatch`. -/
inductive MatchType
  | barangay
  | city
  | province
deriving DecidableEq

/-- LocRec is the four-field location record shared by the resolvers (the
source objects also carry `regionCode`, which no claim concerns). -/
structure LocRec where
  region : Str
  province : Str
  city : Str
  barangay : Str
deriving DecidableEq

/-- explicitLocTest is `/\blocation\s*(?:is|=|:)/i.test(text)`. -/
def explicitLocTest (text : Str) : Bool :=
  testPat (fun t i =>
    wbAt t i &&
    (match (litAt (("location").toList) t i).map (fun j => wsStar t j) with
     | some j =>
       (litAt (("is").toList) t j).isSome ||
       (clsAt (fun c => c = '=' || c = ':') t j).isSome
     | none => false)) (text.map lc)

/-- scoreMatch is `HierarchicalLocationParser.scoreMatch`: base 30/50/40
for barangay/city/province, corroboration boosts (+40 city in text, +20
province in text at barangay level, +30 province in text at city level), a
-50 penalty for a globally ambiguous barangay whose city is not in the
text, and +20 for an explicit location declaration. -/
def scoreMatch (idx : LocationIndex) (m : LocRec) (text : Str)
    (ty : MatchType) : Int :=
  (match ty with
   | .barangay =>
     (30 : Int) +
     (if !m.city.isEmpty && jsIncludes (text.map lc) (m.city.map lc) then 40 else 0) +
     (if !m.province.isEmpty && jsIncludes (text.map lc) (m.province.map lc) then 20
      else 0) +
     (if isAmbiguousBarangay idx m.barangay &&
         !(jsIncludes (text.map lc) (m.city.map lc)) then -50 else 0)
   | .city =>
     (50 : Int) +
     (if !m.province.isEmpty && jsIncludes (text.map lc) (m.province.map lc) then 30
      else 0)
   | .province => (40 : Int)) +
  (if explicitLocTest text then 20 else 0)

/-- cityInfoLength models the JavaScript property access
`cityMatch.length` on the plain object returned by `findCity`: the object
has no `length` property, so the access yields `undefined` (here:
`none`). -/
def cityInfoLength (_ : CityInfo) : Option Nat := none

/-- extractContexts is `HierarchicalLocationParser.extractContexts`.  The
city scan requires `cityMatch.length === 1`, comparing `undefined` with
`1`, so it never fires (were it to fire, the source would read
`cityMatch[0].province` of `undefined` and throw); the province scan then
takes the first candidate that resolves as a province. -/
def extractContexts (idx : LocationIndex) (candidates : List Str) :
    Option Str × Option Str :=
  let cityPair : Option (Str × Str) :=
    candidates.findSome? (fun c =>
      match findCity idx c none with
      | some ci => if cityInfoLength ci == some 1 then some (c, []) else none
      | none => none)
  let provinceCtx : Option Str :=
    match candidates.find? (fun c => (findProvince idx c).isSome) with
    | some c => some c
    | none => cityPair.map (·.2)
  (cityPair.map (·.1), provinceCtx)

/-- CandV2 is the candidate shape consumed by
`HierarchicalLocationParserV2.findBestMatch`; `generic` covers the
`city`/`location` types, which the source handles in its final `else`
branch. -/
inductive CandV2
  | brgy (name : Str) (context : Option Str)
  | area (name : Str)
  | seq (first second third : Str)
  | generic (name : Str)

/-- adminUnitLength models `barangayMatch.length` on the plain object
returned by `findBarangay`: `undefined`. -/
def adminUnitLength (_ : AdminUnit) : Option Nat := none

/-- toLocRec projects an `AdminUnit` onto the four result fields. -/
def toLocRec (u : AdminUnit) : LocRec :=
  { region := u.region, province := u.province, city := u.city, barangay := u.barangay }

/-- resolveArea is the `candidate.type === 'area'` branch of the V2
`findBestMatch`: the barangay arm tests `barangayMatch.length === 1` on a
non-array, which never holds (and the arm would read `barangayMatch[0]`,
i.e. `undefined`, recording no match), so every area candidate resolves
through `findCity` with an empty barangay field at score 0.7.  Scores are
scaled by 10 (0.7 is 7) so that the arithmetic is exact and
kernel-computable. -/
def resolveArea (idx : LocationIndex) (name : Str) : Option (LocRec × Int) :=
  if (match findBarangay idx name none none with
      | some u => adminUnitLength u == some 1
      | none => false) then
    none
  else
    match findCity idx name none with
    | some ci =>
      some ({ region := ci.region, province := ci.province, city := ci.city,
              barangay := [] }, 7)
    | none => none

/-- resolveCand is the per-candidate body of the V2 `findBestMatch` loop,
returning the recorded `locationMatch` and `score`.  In the generic branch
the three lookups are sequential assignments, so a later hit overwrites an
earlier one (a name that is both a city and a province scores 0.4 as a
province).  Scores 0.8/0.7/0.6/0.5/0.4 appear scaled by 10. -/
def resolveCand (idx : LocationIndex) : CandV2 → Option (LocRec × Int)
  | .brgy name context =>
    (match findBarangay idx name context none with
     | some u => some (toLocRec u, 8)
     | none => none)
  | .area name => resolveArea idx name
  | .seq first second _third =>
    (match findBarangay idx first (some second) none with
     | some u => some (toLocRec u, 7)
     | none => none)
  | .generic name =>
    let r1 : Option (LocRec × Int) :=
      match findBarangay idx name none none with
      | some u =>
        if !(isAmbiguousBarangay idx name) then some (toLocRec u, 5) else none
      | none => none
    let r2 : Option (LocRec × Int) :=
      match findCity idx name none with
      | some ci =>
        some ({ region := ci.region, province := ci.province, city := ci.city,
                barangay := [] }, 6)
      | none => r1
    match findProvince idx name with
    | some pi =>
      some ({ region := pi.region, province := pi.province, city := [],
              barangay := [] }, 4)
    | none => r2

/-- findBestMatchV2 is `HierarchicalLocationParserV2.findBestMatch`: each
candidate's score is boosted by `*(1 + confidence)`, the best-scoring
match is kept, and the result is dropped below the 0.3 minimum-confidence
threshold.  The `fullText` argument is unused by the source loop.  The
whole comparison chain is scaled by 1000: the per-candidate score carries
a factor 10 and `confidence100` stands for `100 * confidence`, so
`score * (1 + confidence)` becomes `score10 * (100 + confidence100)` and
the 0.3 threshold becomes 300; the scaling is exact, so every comparison
agrees with the rational-valued original.  `stepV2` is the loop body. -/
def stepV2 (idx : LocationIndex) (confidence100 : Int)
    (acc : Option LocRec × Int) (cand : CandV2) : Option LocRec × Int :=
  match resolveCand idx cand with
  | some rs =>
    if rs.2 * (100 + confidence100) > acc.2 then
      (some rs.1, rs.2 * (100 + confidence100))
    else acc
  | none => acc

/-- findBestMatchV2 folds `stepV2` over the candidates and applies the
minimum-confidence threshold. -/
def findBestMatchV2 (idx : LocationIndex) (candidates : List CandV2)
    (_fullText : Str) (confidence100 : Int) : Option LocRec :=
  let best := candidates.foldl (stepV2 idx confidence100) (none, 0)
  if best.2 < 300 then none else best.1

/-- orNone is the `location.field || 'None'` idiom: the empty string is
falsy. -/
def orNone (s : Str) : Str := if s.isEmpty then ("None").toList else s

/-- normalizeLocationFields is the v5 utility: a null location becomes the
all-`"None"` record, otherwise each falsy field is replaced by `"None"`. -/
def normalizeLocationFields (location : Option LocRec) : LocRec :=
  match location with
  | none =>
    { region := ("None").toList, province := ("None").toList,
      city := ("None").toList, barangay := ("None").toList }
  | some l =>
    { region := orNone l.region, province := orNone l.province,
      city := orNone l.city, barangay := orNone l.barangay }

/-- demoGaz is a small concrete dataset used to witness and refute claims:
barangay `Uno` is ambiguous between two cities of province `ALPHA`, and
city `Foo` is ambiguous between provinces `BETA` and `GAMMA`. -/
def demoGaz : Gazetteer :=
  [{ code := ("01").toList, regionName := ("REGION ONE").toList,
     provinceList :=
       [{ name := ("ALPHA").toList,
          municipalityList :=
            [{ name := ("Alphaville").toList,
               barangayList := [("Uno").toList, ("Dos").toList] },
             { name := ("San Juan").toList,
               barangayList := [("Uno").toList] }] },
        { name := ("BETA").toList,
          municipalityList :=
            [{ name := ("Foo").toList, barangayList := [("Tres").toList] }] }] },
   { code := ("02").toList, regionName := ("REGION TWO").toList,
     provinceList :=
       [{ name := ("GAMMA").toList,
          municipalityList :=
            [{ name := ("Foo").toList, barangayList := [("Quatro").toList] }] }] }]

/-- demoIdx is the index built from `demoGaz`. -/
def demoIdx : LocationIndex := buildIndexes demoGaz

/-- demoAreaResult is the V2 result for the demo area candidate
`Alphaville`. -/
def demoAreaResult : LocRec :=
  { region := ("REGION ONE").toList, province := ("ALPHA").toList,
    city := ("Alphaville").toList, barangay := [] }

/-- demoFooBeta is the city-index entry for `Foo` in province `BETA`. -/
def demoFooBeta : CityInfo :=
  { city := ("Foo").toList, province := ("BETA").toList,
    region := ("REGION ONE").toList, regionCode := ("01").toList,
    barangays := [("Tres").toList] }

/-- demoFooGamma is the city-index entry for `Foo` in province `GAMMA`. -/
def demoFooGamma : CityInfo :=
  { city := ("Foo").toList, province := ("GAMMA").toList,
    region := ("REGION TWO").toList, regionCode := ("02").toList,
    barangays := [("Quatro").toList] }

/-- demoUnoAlphaville is the barangay-index entry for `Uno` in
`Alphaville`. -/
def demoUnoAlphaville : AdminUnit :=
  { barangay := ("Uno").toList, city := ("Alphaville").toList,
    province := ("ALPHA").toList, region := ("REGION ONE").toList,
    regionCode := ("01").toList }

/-- demoUnoSanJuan is the barangay-index entry for `Uno` in `San Juan`. -/
def demoUnoSanJuan : AdminUnit :=
  { barangay := ("Uno").toList, city := ("San Juan").toList,
    province := ("ALPHA").toList, region := ("REGION ONE").toList,
    regionCode := ("01").toList }

/-- demoDos is the LocRec used to probe the V1 scorer. -/
def demoDos : LocRec :=
  { region := ("REGION ONE").toList, province := ("ALPHA").toList,
    city := ("Alphaville").toList, barangay := ("Dos").toList }

/-- gazCityPairs lists every (city name, province name) pair of the raw
dataset. -/
def gazCityPairs (g : Gazetteer) : List (Str × Str) :=
  g.flatMap (fun r => r.provinceList.flatMap (fun p =>
    p.municipalityList.map (fun c => (c.name, p.name))))

/-- charOK holds for the characters that can appear in a normalized key:
lower-case alphanumerics and the plain space. -/
def charOK (c : Char) : Bool := isLowerAlnum c || c = ' '

/-- noWsPair holds when no two consecutive characters are both
whitespace. -/
def noWsPair : Str → Bool
  | a :: b :: r => (!(jsWs a && jsWs b)) && noWsPair (b :: r)
  | _ => true

/-- headNonWs holds when the first character, if any, is not
whitespace. -/
def headNonWs : Str → Bool
  | [] => true
  | c :: _ => !jsWs c

/-- lastNonWs holds when the last character, if any, is not whitespace. -/
def lastNonWs (l : Str) : Bool :=
  match l.getLast? with
  | some c => !jsWs c
  | none => true

/-- cityTableOK states that every city-index entry carries a (city,
province) pair of the raw dataset. -/
def cityTableOK (g : Gazetteer) (t : Table (List CityInfo)) : Prop :=
  ∀ e ∈ t, ∀ ci ∈ e.2, (ci.city, ci.province) ∈ gazCityPairs g

/-- brgyTableOK states that every barangay-index entry carries a (city,
province) pair of the raw dataset. -/
def brgyTableOK (g : Gazetteer) (t : Table (List AdminUnit)) : Prop :=
  ∀ e ∈ t, ∀ u ∈ e.2, (u.city, u.province) ∈ gazCityPairs g

/-- idxOK bundles the two table invariants. -/
def idxOK (g : Gazetteer) (idx : LocationIndex) : Prop :=
  cityTableOK g idx.cityIndex ∧ brgyTableOK g idx.barangayIndex

set_option maxRecDepth 200000

theorem head?_mem {α : Type} {l : List α} {a : α} (h : l.head? = some a) : a ∈ l := by
  cases l with
  | nil => simp at h
  | cons x r => simp at h; simp [h]

theorem foldl_pres {α β : Type} (P : β → Prop) (f : β → α → β) :
    ∀ (l : List α) (init : β), P init → (∀ b a, a ∈ l → P b → P (f b a)) →
      P (l.foldl f init) := by
  intro l
  induction l with
  | nil => intro init h _; simpa using h
  | cons a r ih =>
    intro init h hs
    exact ih _ (hs _ _ (by simp) h) (fun b x hx hb => hs b x (by simp [hx]) hb)

theorem findSome?_none {α β : Type} (f : α → Option β) :
    ∀ l : List α, (∀ a ∈ l, f a = none) → l.findSome? f = none := by
  intro l h
  induction l with
  | nil => rfl
  | cons a r ih =>
    rw [List.findSome?_cons, h a (by simp)]
    exact ih (fun x hx => h x (by simp [hx]))

/-- C10: in the V2 resolver an `area` candidate can never produce a
barangay-level match: the `barangayMatch.length === 1` test compares
`undefined` with `1`, so every resolved area candidate comes from the city
index and carries an empty barangay field. -/
theorem area_candidate_resolves_city_only (idx : LocationIndex) (name : Str)
    (r : LocRec) (s : Int) (h : resolveArea idx name = some (r, s)) :
    r.barangay = [] ∧ ∃ ci, findCity idx name none = some ci ∧
      r.city = ci.city ∧ r.province = ci.province ∧ r.region = ci.region ∧ s = 7 := by
  unfold resolveArea at h
  have hcond : (match findBarangay idx name none none with
      | some u => adminUnitLength u == some 1
      | none => false) = false := by
    cases findBarangay idx name none none with
    | none => rfl
    | some u => simp [adminUnitLength]
  rw [hcond] at h
  simp only [if_false, Bool.false_eq_true] at h
  cases hc : findCity idx name none with
  | none => rw [hc] at h; cases h
  | some ci =>
    rw [hc] at h
    injection h with h'
    have h1 := congrArg Prod.fst h'
    have h2 := congrArg Prod.snd h'
    simp at h1 h2
    refine ⟨?_, ci, rfl, ?_, ?_, ?_, ?_⟩ <;> simp [← h1, h2]

/-- C10 witness: on the demo index, the area candidate `Alphaville`
resolves through the city index with an empty barangay. -/
theorem area_candidate_resolves_city_only_witness :
    demoAreaResult.barangay = [] ∧
    ∃ ci, findCity demoIdx (("Alphaville").toList) none = some ci ∧
      demoAreaResult.city = ci.city ∧ demoAreaResult.province = ci.province ∧
      demoAreaResult.region = ci.region ∧ (7 : Int) = 7 :=
  area_candidate_resolves_city_only demoIdx (("Alphaville").toList)
    demoAreaResult 7 (by decide)

/-- C8: the context-extraction step never produces a city anchor: the
source tests `cityMatch.length === 1` on the plain object returned by
`findCity` (whose `length` is `undefined`), so the city scan always falls
through; on the demo index the candidate `Alphaville` resolves as a city,
yet `extractContexts` returns no anchor at all. -/
theorem extractContexts_city_always_none :
    (∀ (idx : LocationIndex) (candidates : List Str),
      (extractContexts idx candidates).1 = none) ∧
    (findCity demoIdx (("Alphaville").toList) none).isSome = true ∧
    extractContexts demoIdx [("Alphaville").toList] = (none, none) := by
  refine ⟨?_, by decide, by decide⟩
  intro idx candidates
  unfold extractContexts
  simp only [Option.map_eq_none', List.findSome?_eq_none_iff]
  intro x _
  cases findCity idx x none with
  | none => rfl
  | some ci => simp [cityInfoLength]

/-- C7: a word whose lower-cased, trimmed form matches one of the Tagalog
verb-morphology patterns is always classified as a false positive,
whatever the full text says: the verb check precedes every context-aware
check and each earlier branch also returns true. -/
theorem verb_shaped_word_is_false_positive (w t : Str)
    (h : tagalogVerbAny (jsTrim (w.map lc)) = true) :
    isFalsePositive w t = true := by
  unfold isFalsePositive
  split
  · rfl
  · simp [h]

/-- C7 witness: `nagpunta` is verb-shaped and is rejected even with an
empty text. -/
theorem verb_shaped_word_is_false_positive_witness :
    isFalsePositive (("nagpunta").toList) [] = true :=
  verb_shaped_word_is_false_positive (("nagpunta").toList) [] (by decide)

/-- C9 counterexample: a non-null V2 result for an area candidate carries
the empty string, not the `"None"` sentinel, in its absent barangay field
(and the record has no confidence component at all). -/
theorem v2_result_uses_empty_string_not_none :
    findBestMatchV2 demoIdx [CandV2.area (("Alphaville").toList)] [] 0 =
      some demoAreaResult ∧
    demoAreaResult.barangay = [] ∧ demoAreaResult.barangay ≠ ("None").toList := by
  exact ⟨by decide, by decide, by decide⟩

/-- C9 amended: a non-null V2 result has the four fields region, province,
city, barangay; the `"None"` sentinel is applied only by the v5 utility
`normalizeLocationFields`, which maps each empty (falsy) field to `"None"`
and keeps non-empty fields, so the normalized record has four non-empty
fields. -/
theorem v2_result_normalized_fields (idx : LocationIndex)
    (cands : List CandV2) (t : Str) (conf : Int) (r : LocRec)
    (_h : findBestMatchV2 idx cands t conf = some r) :
    ((normalizeLocationFields (some r)).region ≠ [] ∧
     (normalizeLocationFields (some r)).province ≠ [] ∧
     (normalizeLocationFields (some r)).city ≠ [] ∧
     (normalizeLocationFields (some r)).barangay ≠ []) ∧
    (r.barangay = [] → (normalizeLocationFields (some r)).barangay = ("None").toList) ∧
    (r.barangay ≠ [] → (normalizeLocationFields (some r)).barangay = r.barangay) ∧
    (r.city = [] → (normalizeLocationFields (some r)).city = ("None").toList) ∧
    (r.city ≠ [] → (normalizeLocationFields (some r)).city = r.city) := by
  have hne : ∀ s : Str, orNone s ≠ [] := by
    intro s
    unfold orNone
    split
    · decide
    · rename_i hs
      simpa [List.isEmpty_iff] using hs
  have heq : ∀ s : Str, s = [] → orNone s = ("None").toList := by
    intro s hs
    simp [orNone, hs]
  have hkeep : ∀ s : Str, s ≠ [] → orNone s = s := by
    intro s hs
    simp [orNone, List.isEmpty_iff, hs]
  exact ⟨⟨hne _, hne _, hne _, hne _⟩, heq _, hkeep _, heq _, hkeep _⟩

/-- C9 witness: the amended statement evaluated on the demo resolver
result. -/
theorem v2_result_normalized_fields_witness :
    ((normalizeLocationFields (some demoAreaResult)).region ≠ [] ∧
     (normalizeLocationFields (some demoAreaResult)).province ≠ [] ∧
     (normalizeLocationFields (some demoAreaResult)).city ≠ [] ∧
     (normalizeLocationFields (some demoAreaResult)).barangay ≠ []) ∧
    (demoAreaResult.barangay = [] →
      (normalizeLocationFields (some demoAreaResult)).barangay = ("None").toList) ∧
    (demoAreaResult.barangay ≠ [] →
      (normalizeLocationFields (some demoAreaResult)).barangay =
        demoAreaResult.barangay) ∧
    (demoAreaResult.city = [] →
      (normalizeLocationFields (some demoAreaResult)).city = ("None").toList) ∧
    (demoAreaResult.city ≠ [] →
      (normalizeLocationFields (some demoAreaResult)).city = demoAreaResult.city) :=
  v2_result_normalized_fields demoIdx [CandV2.area (("Alphaville").toList)] [] 0
    demoAreaResult (by decide)

/-- C2 counterexample: the city key `foo` is ambiguous (two index entries)
and is not in the priority table, yet `findCity` with no hint returns the
first entry instead of null. -/
theorem findCity_ambiguous_no_hint_returns_first :
    lookupTbl demoIdx.cityIndex (normalizeKey (("Foo").toList)) =
      some [demoFooBeta, demoFooGamma] ∧
    lookupTbl priorityCities (normalizeKey (("Foo").toList)) = none ∧
    findCity demoIdx (("Foo").toList) none = some demoFooBeta := by
  exact ⟨by decide, by decide, by decide⟩

/-- C2 amended: when the exact-key lookup is ambiguous, no province hint
is given and the priority table does not resolve the key, `findCity`
defaults to the first match in index insertion order (it never returns
null in this situation). -/
theorem findCity_ambiguous_defaults_to_first (idx : LocationIndex)
    (name : Str) (ms : List CityInfo)
    (hb : lookupTbl idx.cityIndex (normalizeKey name) = some ms)
    (hlen : 2 ≤ ms.length)
    (hpri : (match lookupTbl priorityCities (normalizeKey name) with
             | some prov => ms.find? (fun m => jsIncludes m.province prov)
             | none => none) = none) :
    findCity idx name none = ms.head? := by
  have h0 : ¬(ms.length = 0) := by omega
  have h1 : ¬(ms.length = 1) := by omega
  unfold findCity
  rw [hb]
  simp only [h0, if_false, h1]
  cases hp : lookupTbl priorityCities (normalizeKey name) with
  | none => simp [hp]
  | some prov =>
    rw [hp] at hpri
    simp at hpri
    have hfind : List.find? (fun m => jsIncludes m.province prov) ms = none := by
      rw [List.find?_eq_none]
      intro x hx
      simp [hpri x hx]
    simp [hp, hfind]

/-- C2 witness: the amended statement evaluated on the demo index. -/
theorem findCity_ambiguous_defaults_to_first_witness :
    findCity demoIdx (("Foo").toList) none =
      ([demoFooBeta, demoFooGamma] : List CityInfo).head? :=
  findCity_ambiguous_defaults_to_first demoIdx (("Foo").toList)
    [demoFooBeta, demoFooGamma] (by decide) (by decide) (by decide)

/-- C3 counterexample: with hint `san`, no entry of the ambiguous bucket
`uno` has city key equal to the hint's key, yet `findBarangay` returns the
`San Juan` entry (whose key merely contains the hint) instead of null. -/
theorem findBarangay_substring_hint_not_exact :
    findBarangay demoIdx (("Uno").toList) (some (("san").toList)) none =
      some demoUnoSanJuan ∧
    lookupTbl demoIdx.barangayIndex (normalizeKey (("Uno").toList)) =
      some [demoUnoAlphaville, demoUnoSanJuan] ∧
    (∀ u ∈ [demoUnoAlphaville, demoUnoSanJuan],
      normalizeKey u.city ≠ normalizeKey (("san").toList)) := by
  refine ⟨by decide, by decide, by decide⟩

/-- C3 amended: on an ambiguous bucket, `findBarangay` with no hint
returns null; with a city hint it returns the first entry whose normalized
city key equals, contains, or is contained in the hint's normalized key (a
substring comparison, not exact key matching), and null when no entry
passes that loose comparison. -/
theorem findBarangay_ambiguous_contract (idx : LocationIndex)
    (name c : Str) (ms : List AdminUnit)
    (hb : lookupTbl idx.barangayIndex (normalizeKey name) = some ms)
    (hlen : 2 ≤ ms.length) :
    (findBarangay idx name none none = none) ∧
    (∀ u, findBarangay idx name (some c) none = some u →
       u ∈ ms ∧ ((normalizeKey u.city == normalizeKey c) ||
         jsIncludes (normalizeKey u.city) (normalizeKey c) ||
         jsIncludes (normalizeKey c) (normalizeKey u.city)) = true) ∧
    (ms.find? (fun m => (normalizeKey m.city == normalizeKey c) ||
        jsIncludes (normalizeKey m.city) (normalizeKey c) ||
        jsIncludes (normalizeKey c) (normalizeKey m.city)) = none →
      findBarangay idx name (some c) none = none) := by
  have h0 : ¬(ms.length = 0) := by omega
  have h1 : ¬(ms.length = 1) := by omega
  refine ⟨?_, ?_, ?_⟩
  · unfold findBarangay
    rw [hb]
    simp [h0, h1]
  · intro u hu
    unfold findBarangay at hu
    rw [hb] at hu
    simp only [h0, if_false, h1] at hu
    cases hf : ms.find? (fun m => (normalizeKey m.city == normalizeKey c) ||
        jsIncludes (normalizeKey m.city) (normalizeKey c) ||
        jsIncludes (normalizeKey c) (normalizeKey m.city)) with
    | none => rw [hf] at hu; simp at hu
    | some m =>
      rw [hf] at hu
      simp at hu
      subst hu
      refine ⟨List.mem_of_find?_eq_some hf, ?_⟩
      have hp := List.find?_some hf
      simpa using hp
  · intro hfind
    unfold findBarangay
    rw [hb]
    simp [h0, h1, hfind]

/-- C3 witness: the amended statement evaluated on the demo index. -/
theorem findBarangay_ambiguous_contract_witness :
    findBarangay demoIdx (("Uno").toList) none none = none :=
  (findBarangay_ambiguous_contract demoIdx (("Uno").toList) (("san").toList)
    [demoUnoAlphaville, demoUnoSanJuan] (by decide) (by decide)).1

/-- C4 counterexample: with no corroborating context the V1 scorer gives a
barangay-level match 30, a city-level match 50 and a province-level match
40, so the barangay base score is not higher than the city base score. -/
theorem scoreMatch_base_order_city_first :
    scoreMatch demoIdx demoDos (("zzz").toList) MatchType.barangay = 30 ∧
    scoreMatch demoIdx demoDos (("zzz").toList) MatchType.city = 50 ∧
    scoreMatch demoIdx demoDos (("zzz").toList) MatchType.province = 40 ∧
    ¬(scoreMatch demoIdx demoDos (("zzz").toList) MatchType.barangay >
      scoreMatch demoIdx demoDos (("zzz").toList) MatchType.city) := by
  refine ⟨by decide, by decide, by decide, by decide⟩

/-- C4 amended: the base scores of the V1 scorer order city (50) above
province (40) above barangay (30); with no textual corroboration, no
explicit location declaration and no ambiguity penalty, a city-level match
outscores a barangay-level match of the same unit.  A barangay match
overtakes a city match only through the +40 corroboration boost for its
city appearing in the text. -/
theorem scoreMatch_base_scores (idx : LocationIndex) (m : LocRec) (t : Str)
    (h1 : jsIncludes (t.map lc) (m.city.map lc) = false)
    (h2 : jsIncludes (t.map lc) (m.province.map lc) = false)
    (h3 : explicitLocTest t = false)
    (h4 : isAmbiguousBarangay idx m.barangay = false) :
    scoreMatch idx m t MatchType.barangay = 30 ∧
    scoreMatch idx m t MatchType.city = 50 ∧
    scoreMatch idx m t MatchType.province = 40 := by
  unfold scoreMatch
  simp [h1, h2, h3, h4]

/-- C4 witness: the amended statement evaluated on the demo scorer
inputs. -/
theorem scoreMatch_base_scores_witness :
    scoreMatch demoIdx demoDos (("zzz").toList) MatchType.barangay = 30 ∧
    scoreMatch demoIdx demoDos (("zzz").toList) MatchType.city = 50 ∧
    scoreMatch demoIdx demoDos (("zzz").toList) MatchType.province = 40 :=
  scoreMatch_base_scores demoIdx demoDos (("zzz").toList)
    (by decide) (by decide) (by decide) (by decide)

theorem ite_some_none_eq {α : Type} {p : Prop} [Decidable p] {x w : α}
    (h : (if p then some x else none) = some w) : p ∧ x = w := by
  split at h
  · exact ⟨by assumption, Option.some.inj h⟩
  · exact Option.noConfusion h

theorem extract_some_is_token (t c w' : Str)
    (hE : extractWordWithBoundaries t c = some w') : occursAsToken c t := by
  unfold extractWordWithBoundaries at hE
  cases hF : firstBIdx t c with
  | none => rw [hF] at hE; exact Option.noConfusion hE
  | some i =>
    rw [hF] at hE
    simp only [Option.some.injEq] at hE
    obtain ⟨hP, -⟩ := ite_some_none_eq hE
    rw [Bool.and_eq_true] at hP
    have hb : bMatchAt t c i = true := by
      have := List.find?_some hF
      simpa using this
    unfold bMatchAt at hb
    simp only [Bool.and_eq_true, beq_iff_eq] at hb
    refine ⟨i, hb.1.1, ?_, ?_⟩
    · intro hi
      cases i with
      | zero => omega
      | succ j =>
        have hP1 := hP.1
        simpa using hP1
    · intro hlt
      have hP2 := hP.2
      rw [if_pos hlt] at hP2
      simpa using hP2

/-- C6: every candidate accepted by `validateLocationCandidate` occurs in
the full text as a complete token, bounded on each side by whitespace,
punctuation or a string edge. -/
theorem accepted_candidate_is_complete_token (c t w : Str)
    (h : validateLocationCandidate c t = VRes.valid w) :
    occursAsToken c t := by
  unfold validateLocationCandidate at h
  split at h
  · exact VRes.noConfusion h
  · split at h
    · exact VRes.noConfusion h
    · split at h
      · exact VRes.noConfusion h
      · cases hE : extractWordWithBoundaries t c with
        | none => rw [hE] at h; exact VRes.noConfusion h
        | some w' => exact extract_some_is_token t c w' hE

/-- C6 witness: `cebu` in `here in cebu area` passes the filter and indeed
occurs as a complete token. -/
theorem accepted_candidate_is_complete_token_witness :
    occursAsToken (("cebu").toList) (("here in cebu area").toList) :=
  accepted_candidate_is_complete_token (("cebu").toList)
    (("here in cebu area").toList) (("cebu").toList) (by decide)

theorem charOK_lc {c : Char} (h : charOK c = true) : lc c = c := by
  unfold lc
  rw [if_neg]
  intro hc
  simp [charOK, isLowerAlnum] at h
  rcases h with (h | h) | h
  · omega
  · omega
  · subst h
    exact absurd hc (by decide)

theorem charOK_ne_paren {a : Char} (h : charOK a = true) : a ≠ '(' := by
  intro heq
  subst heq
  exact absurd h (by decide)

theorem charOK_ws_space {a : Char} (hws : jsWs a = true) (h : charOK a = true) :
    a = ' ' := by
  simp [charOK] at h
  rcases h with h | h
  · exfalso
    simp [isLowerAlnum] at h
    simp [jsWs] at hws
    omega
  · exact h

theorem mem_dropTrailWs {a : Char} : ∀ {l : Str}, a ∈ dropTrailWs l → a ∈ l := by
  intro l
  induction l with
  | nil => intro h; exact h
  | cons c r ih =>
    intro h
    unfold dropTrailWs at h
    cases hd : dropTrailWs r with
    | nil =>
      rw [hd] at h
      by_cases hc : jsWs c = true
      · rw [if_pos hc] at h
        simp at h
      · rw [if_neg hc] at h
        rw [List.mem_singleton] at h
        subst h
        exact List.mem_cons_self _ _
    | cons x xs =>
      rw [hd] at h
      rcases List.mem_cons.mp h with h1 | h1
      · subst h1
        exact List.mem_cons_self _ _
      · rw [← hd] at h1
        exact List.mem_cons_of_mem _ (ih h1)

theorem chars_collapseAux {a : Char} :
    ∀ (l : Str) (b : Bool), a ∈ collapseWsAux b l →
      a = ' ' ∨ (a ∈ l ∧ jsWs a = false) := by
  intro l
  induction l with
  | nil => intro b h; simp [collapseWsAux] at h
  | cons c r ih =>
    intro b h
    unfold collapseWsAux at h
    by_cases hws : jsWs c = true
    · rw [if_pos hws] at h
      cases b with
      | true =>
        rcases ih true h with h' | h'
        · exact Or.inl h'
        · exact Or.inr ⟨List.mem_cons_of_mem _ h'.1, h'.2⟩
      | false =>
        rcases List.mem_cons.mp h with h1 | h1
        · exact Or.inl h1
        · rcases ih true h1 with h' | h'
          · exact Or.inl h'
          · exact Or.inr ⟨List.mem_cons_of_mem _ h'.1, h'.2⟩
    · rw [if_neg hws] at h
      rcases List.mem_cons.mp h with h1 | h1
      · subst h1
        exact Or.inr ⟨List.mem_cons_self _ _, by simpa using hws⟩
      · rcases ih false h1 with h' | h'
        · exact Or.inl h'
        · exact Or.inr ⟨List.mem_cons_of_mem _ h'.1, h'.2⟩

theorem chars_toSpaces {a : Char} {l : Str} (h : a ∈ toSpaces l) :
    (isLowerAlnum a || jsWs a) = true := by
  unfold toSpaces at h
  rw [List.mem_map] at h
  obtain ⟨x, -, hx⟩ := h
  by_cases hc : (isLowerAlnum x || jsWs x) = true
  · rw [if_pos hc] at hx
    rw [hx] at hc
    exact hc
  · rw [if_neg hc] at hx
    subst hx
    decide

theorem normalizeKey_chars {a : Char} {l : Str} (h : a ∈ normalizeKey l) :
    charOK a = true := by
  unfold normalizeKey jsTrim at h
  have h1 : a ∈ collapseWs (toSpaces (stripCitySfx (stripBarangayPfx (stripBrgyPfx
      (removeParens (l.map lc)))))) :=
    (List.dropWhile_sublist _).mem (mem_dropTrailWs h)
  unfold collapseWs at h1
  rcases chars_collapseAux _ _ h1 with h2 | h2
  · simp [charOK, h2]
  · have h3 := chars_toSpaces h2.1
    rw [h2.2] at h3
    simp at h3
    simp [charOK, h3]

theorem noWsPair_tail {a : Char} {l : Str} (h : noWsPair (a :: l) = true) :
    noWsPair l = true := by
  cases l with
  | nil => rfl
  | cons b r =>
    unfold noWsPair at h
    rw [Bool.and_eq_true] at h
    exact h.2

theorem noWsPair_cons {a : Char} {l : Str} (ha : jsWs a = false)
    (hl : noWsPair l = true) : noWsPair (a :: l) = true := by
  cases l with
  | nil => rfl
  | cons b r =>
    unfold noWsPair
    rw [Bool.and_eq_true]
    exact ⟨by simp [ha], hl⟩

theorem noWsPair_space {l : Str} (hl : noWsPair l = true)
    (hh : headNonWs l = true) : noWsPair (' ' :: l) = true := by
  cases l with
  | nil => rfl
  | cons b r =>
    unfold noWsPair
    rw [Bool.and_eq_true]
    refine ⟨?_, hl⟩
    unfold headNonWs at hh
    rw [Bool.not_eq_true'] at hh
    simp [hh]

theorem collapse_invariants :
    ∀ l : Str, noWsPair (collapseWsAux false l) = true ∧
      noWsPair (collapseWsAux true l) = true ∧
      headNonWs (collapseWsAux true l) = true := by
  intro l
  induction l with
  | nil => exact ⟨rfl, rfl, rfl⟩
  | cons c r ih =>
    obtain ⟨ihf, iht, ihh⟩ := ih
    by_cases hws : jsWs c = true
    · refine ⟨?_, ?_, ?_⟩
      · show noWsPair (collapseWsAux false (c :: r)) = true
        unfold collapseWsAux
        rw [if_pos hws]
        exact noWsPair_space iht ihh
      · show noWsPair (collapseWsAux true (c :: r)) = true
        unfold collapseWsAux
        rw [if_pos hws]
        exact iht
      · show headNonWs (collapseWsAux true (c :: r)) = true
        unfold collapseWsAux
        rw [if_pos hws]
        exact ihh
    · have hws' : jsWs c = false := by simpa using hws
      refine ⟨?_, ?_, ?_⟩
      · show noWsPair (collapseWsAux false (c :: r)) = true
        unfold collapseWsAux
        rw [if_neg hws]
        exact noWsPair_cons hws' ihf
      · show noWsPair (collapseWsAux true (c :: r)) = true
        unfold collapseWsAux
        rw [if_neg hws]
        exact noWsPair_cons hws' ihf
      · show headNonWs (collapseWsAux true (c :: r)) = true
        unfold collapseWsAux
        rw [if_neg hws]
        unfold headNonWs
        simp [hws']

theorem noWsPair_dropWhile {p : Char → Bool} :
    ∀ {l : Str}, noWsPair l = true → noWsPair (l.dropWhile p) = true := by
  intro l
  induction l with
  | nil => intro _; rfl
  | cons c r ih =>
    intro h
    rw [List.dropWhile_cons]
    split
    · exact ih (noWsPair_tail h)
    · exact h

theorem dropTrailWs_head : ∀ {l : Str} {h : Char} {tl : Str},
    dropTrailWs l = h :: tl → ∃ tl', l = h :: tl' := by
  intro l
  cases l with
  | nil => intro h tl hh; simp [dropTrailWs] at hh
  | cons c r =>
    intro h tl hh
    unfold dropTrailWs at hh
    cases hd : dropTrailWs r with
    | nil =>
      rw [hd] at hh
      by_cases hc : jsWs c = true
      · rw [if_pos hc] at hh
        exact absurd hh (by simp)
      · rw [if_neg hc] at hh
        injection hh with h1 _
        exact ⟨r, by rw [h1]⟩
    | cons x xs =>
      rw [hd] at hh
      injection hh with h1 _
      exact ⟨r, by rw [h1]⟩

theorem noWsPair_dropTrailWs : ∀ {l : Str}, noWsPair l = true →
    noWsPair (dropTrailWs l) = true := by
  intro l
  induction l with
  | nil => intro _; rfl
  | cons c r ih =>
    intro h
    unfold dropTrailWs
    cases hd : dropTrailWs r with
    | nil =>
      by_cases hc : jsWs c = true
      · rw [if_pos hc]
        rfl
      · rw [if_neg hc]
        rfl
    | cons x xs =>
      have hx : noWsPair (x :: xs) = true := by
        rw [← hd]
        exact ih (noWsPair_tail h)
      obtain ⟨tl', htl⟩ := dropTrailWs_head hd
      rw [htl] at h
      unfold noWsPair at h
      rw [Bool.and_eq_true] at h
      show noWsPair (c :: x :: xs) = true
      unfold noWsPair
      rw [Bool.and_eq_true]
      exact ⟨h.1, hx⟩

theorem dropWhile_head_false {p : Char → Bool} : ∀ {l : Str} {h : Char} {tl : Str},
    l.dropWhile p = h :: tl → p h = false := by
  intro l
  induction l with
  | nil => intro h tl hh; simp at hh
  | cons c r ih =>
    intro h tl hh
    rw [List.dropWhile_cons] at hh
    split at hh
    · exact ih hh
    · rename_i hpc
      injection hh with h1 _
      rw [← h1]
      simpa using hpc

theorem lastNonWs_dropTrailWs : ∀ l : Str, lastNonWs (dropTrailWs l) = true := by
  intro l
  induction l with
  | nil => rfl
  | cons c r ih =>
    unfold dropTrailWs
    cases hd : dropTrailWs r with
    | nil =>
      by_cases hc : jsWs c = true
      · rw [if_pos hc]
        rfl
      · rw [if_neg hc]
        unfold lastNonWs
        simp [hc]
    | cons x xs =>
      rw [hd] at ih
      unfold lastNonWs at ih ⊢
      rw [List.getLast?_cons_cons]
      exact ih

theorem mapLc_fix : ∀ {l : Str}, (∀ a ∈ l, charOK a = true) → l.map lc = l := by
  intro l
  induction l with
  | nil => intro _; rfl
  | cons c r ih =>
    intro h
    rw [List.map_cons]
    rw [charOK_lc (h c (List.mem_cons_self _ _)),
      ih (fun a ha => h a (List.mem_cons_of_mem _ ha))]

theorem removeParensFuel_fix : ∀ (l : Str), (∀ a ∈ l, a ≠ '(') →
    ∀ n, removeParensFuel n l = l := by
  intro l
  induction l with
  | nil =>
    intro _ n
    cases n with
    | zero => rfl
    | succ m => rfl
  | cons c r ih =>
    intro h n
    cases n with
    | zero => rfl
    | succ m =>
      have hm : tryParenMatch (c :: r) = none := by
        unfold tryParenMatch
        cases hdw : (c :: r).dropWhile jsWs with
        | nil => rfl
        | cons x xs =>
          have hx : x ∈ c :: r := (List.dropWhile_sublist _).mem
            (by rw [hdw]; exact List.mem_cons_self _ _)
          have hne : x ≠ '(' := h x hx
          split
          · rename_i heq
            injection heq with h1 _
            exact absurd h1 hne
          · rfl
      unfold removeParensFuel
      rw [hm]
      rw [ih (fun a ha => h a (List.mem_cons_of_mem _ ha)) m]

theorem removeParens_fix {l : Str} (h : ∀ a ∈ l, a ≠ '(') : removeParens l = l :=
  removeParensFuel_fix l h l.length

theorem toSpaces_fix : ∀ {l : Str}, (∀ a ∈ l, charOK a = true) → toSpaces l = l := by
  intro l
  induction l with
  | nil => intro _; rfl
  | cons c r ih =>
    intro h
    unfold toSpaces
    rw [List.map_cons]
    have hc := h c (List.mem_cons_self _ _)
    have hcond : (isLowerAlnum c || jsWs c) = true := by
      simp [charOK] at hc
      rcases hc with hc | hc
      · simp [hc]
      · subst hc; decide
    rw [if_pos hcond]
    have hrest := ih (fun a ha => h a (List.mem_cons_of_mem _ ha))
    unfold toSpaces at hrest
    rw [hrest]

theorem collapse_fix : ∀ (l : Str), (∀ a ∈ l, charOK a = true) →
    noWsPair l = true →
    (collapseWsAux false l = l ∧
     (headNonWs l = true → collapseWsAux true l = l)) := by
  intro l
  induction l with
  | nil => intro _ _; exact ⟨rfl, fun _ => rfl⟩
  | cons c r ih =>
    intro hchars hnwp
    have hr := ih (fun a ha => hchars a (List.mem_cons_of_mem _ ha))
      (noWsPair_tail hnwp)
    by_cases hws : jsWs c = true
    · have hcsp : c = ' ' := charOK_ws_space hws (hchars c (List.mem_cons_self _ _))
      have hhr : headNonWs r = true := by
        cases r with
        | nil => rfl
        | cons x xs =>
          unfold noWsPair at hnwp
          rw [Bool.and_eq_true] at hnwp
          have h1 := hnwp.1
          show (!jsWs x) = true
          cases hxw : jsWs x with
          | false => rfl
          | true =>
            exfalso
            rw [hws, hxw] at h1
            simp at h1
      constructor
      · show collapseWsAux false (c :: r) = c :: r
        unfold collapseWsAux
        rw [if_pos hws]
        have hred : (if false = true then collapseWsAux true r
            else ' ' :: collapseWsAux true r) = ' ' :: collapseWsAux true r := by
          simp
        rw [hred, hr.2 hhr, hcsp]
      · intro hh
        exfalso
        have hh2 : (!jsWs c) = true := hh
        rw [hws] at hh2
        simp at hh2
    · have hws' : jsWs c = false := by simpa using hws
      constructor
      · show collapseWsAux false (c :: r) = c :: r
        unfold collapseWsAux
        rw [if_neg hws]
        rw [hr.1]
      · intro _
        show collapseWsAux true (c :: r) = c :: r
        unfold collapseWsAux
        rw [if_neg hws]
        rw [hr.1]

theorem dropWhileWs_fix : ∀ {l : Str}, headNonWs l = true →
    l.dropWhile jsWs = l := by
  intro l
  cases l with
  | nil => intro _; rfl
  | cons c r =>
    intro h
    have h2 : (!jsWs c) = true := h
    rw [List.dropWhile_cons, if_neg]
    simp at h2
    simp [h2]

theorem dropTrailWs_fix : ∀ {l : Str}, lastNonWs l = true → dropTrailWs l = l := by
  intro l
  induction l with
  | nil => intro _; rfl
  | cons c r ih =>
    intro h
    unfold dropTrailWs
    cases r with
    | nil =>
      have h2 : (!jsWs c) = true := by
        unfold lastNonWs at h
        simpa using h
      simp at h2
      simp [h2]
      rfl
    | cons x xs =>
      have hr : dropTrailWs (x :: xs) = x :: xs := by
        apply ih
        unfold lastNonWs at h ⊢
        rw [List.getLast?_cons_cons] at h
        exact h
      rw [hr]

theorem headNonWs_normalizeKey (l : Str) : headNonWs (normalizeKey l) = true := by
  unfold normalizeKey jsTrim
  cases hd : dropTrailWs ((collapseWs (toSpaces (stripCitySfx (stripBarangayPfx
      (stripBrgyPfx (removeParens (l.map lc))))))).dropWhile jsWs) with
  | nil => rfl
  | cons x xs =>
    obtain ⟨tl', htl⟩ := dropTrailWs_head hd
    show (!jsWs x) = true
    have := dropWhile_head_false htl
    simp [this]

theorem lastNonWs_normalizeKey (l : Str) : lastNonWs (normalizeKey l) = true := by
  unfold normalizeKey jsTrim
  exact lastNonWs_dropTrailWs _

theorem noWsPair_normalizeKey (l : Str) : noWsPair (normalizeKey l) = true := by
  unfold normalizeKey jsTrim
  apply noWsPair_dropTrailWs
  apply noWsPair_dropWhile
  exact (collapse_invariants _).1

theorem normalizeKey_fix {w : Str} (hchars : ∀ a ∈ w, charOK a = true)
    (hnwp : noWsPair w = true) (hhead : headNonWs w = true)
    (hlast : lastNonWs w = true) (hgood : goodKeyB w = true) :
    normalizeKey w = w := by
  unfold goodKeyB at hgood
  rw [Bool.and_eq_true, Bool.and_eq_true] at hgood
  obtain ⟨⟨hbrgy, hbarangay⟩, hcity⟩ := hgood
  rw [Bool.not_eq_true'] at hbrgy hbarangay hcity
  have h1 : stripBrgyPfx w = w := by
    unfold stripBrgyPfx
    split
    · rename_i hp
      rw [hbrgy] at hp
      exact Bool.noConfusion hp
    · rfl
  have h2 : stripBarangayPfx w = w := by
    unfold stripBarangayPfx
    split
    · rename_i hp
      rw [hbarangay] at hp
      exact Bool.noConfusion hp
    · rfl
  have h3 : stripCitySfx w = w := by
    unfold stripCitySfx
    rw [hcity]
    simp
  unfold normalizeKey
  rw [mapLc_fix hchars]
  rw [removeParens_fix (fun a ha => charOK_ne_paren (hchars a ha))]
  rw [h1, h2, h3]
  rw [toSpaces_fix hchars]
  unfold collapseWs
  rw [(collapse_fix w hchars hnwp).1]
  unfold jsTrim
  rw [dropWhileWs_fix hhead]
  exact dropTrailWs_fix hlast

/-- C5 counterexample: `normalizeKey` is not idempotent: normalizing
`brgy brgy x` strips one `brgy` prefix, and normalizing the result strips
the second. -/
theorem normalizeKey_not_idempotent :
    normalizeKey (("brgy brgy x").toList) = ("brgy x").toList ∧
    normalizeKey (normalizeKey (("brgy brgy x").toList)) = ("x").toList ∧
    normalizeKey (normalizeKey (("brgy brgy x").toList)) ≠
      normalizeKey (("brgy brgy x").toList) := by
  refine ⟨by decide, by decide, by decide⟩

/-- C5 amended: `normalizeKey` is deterministic (a pure function), and it
is idempotent on every input whose normalized key does not itself start
with a `brgy`/`barangay` prefix or end with a whitespace-and-`city`
suffix; on such keys every stage of the pipeline is the identity. -/
theorem normalizeKey_deterministic_and_conditionally_idempotent (s : Str) :
    normalizeKey s = normalizeKey s ∧
    (goodKeyB (normalizeKey s) = true →
      normalizeKey (normalizeKey s) = normalizeKey s) := by
  refine ⟨rfl, ?_⟩
  intro hgood
  exact normalizeKey_fix (fun a ha => normalizeKey_chars ha)
    (noWsPair_normalizeKey s) (headNonWs_normalizeKey s)
    (lastNonWs_normalizeKey s) hgood

/-- C5 witness: `Makati City` normalizes to the well-behaved key `makati`,
on which normalization is idempotent. -/
theorem normalizeKey_conditionally_idempotent_witness :
    normalizeKey (normalizeKey (("Makati City").toList)) =
      normalizeKey (("Makati City").toList) :=
  (normalizeKey_deterministic_and_conditionally_idempotent
    (("Makati City").toList)).2 (by decide)

theorem lookupTbl_mem {α : Type} {t : Table α} {k : Str} {b : α}
    (h : lookupTbl t k = some b) : ∃ e ∈ t, e.2 = b := by
  unfold lookupTbl at h
  cases hf : t.find? (fun e => e.1 == k) with
  | none => rw [hf] at h; exact Option.noConfusion h
  | some e =>
    rw [hf] at h
    simp at h
    exact ⟨e, List.mem_of_find?_eq_some hf, h⟩

theorem setTbl_mem {α : Type} {t : Table α} {k : Str} {v : α} {e' : Str × α}
    (h : e' ∈ setTbl t k v) : e'.2 = v ∨ ∃ e ∈ t, e'.2 = e.2 := by
  unfold setTbl at h
  split at h
  · rw [List.mem_map] at h
    obtain ⟨e, he, heq⟩ := h
    by_cases hk : (e.1 == k) = true
    · rw [if_pos hk] at heq
      left
      rw [← heq]
    · rw [if_neg hk] at heq
      right
      exact ⟨e, he, by rw [← heq]⟩
  · rw [List.mem_append] at h
    rcases h with h | h
    · right; exact ⟨e', h, rfl⟩
    · left
      rw [List.mem_singleton] at h
      rw [h]

theorem pushTbl_mem {α : Type} {t : Table (List α)} {k : Str} {v : α}
    {e' : Str × List α} {x : α} (he : e' ∈ pushTbl t k v) (hx : x ∈ e'.2) :
    x = v ∨ ∃ e ∈ t, x ∈ e.2 := by
  unfold pushTbl at he
  cases hl : lookupTbl t k with
  | none =>
    rw [hl] at he
    rw [List.mem_append] at he
    rcases he with he | he
    · right; exact ⟨e', he, hx⟩
    · left
      rw [List.mem_singleton] at he
      subst he
      simpa using hx
  | some b =>
    rw [hl] at he
    rcases setTbl_mem he with h | h
    · rw [h] at hx
      rw [List.mem_append] at hx
      rcases hx with hx | hx
      · right
        obtain ⟨e, het, heb⟩ := lookupTbl_mem hl
        exact ⟨e, het, by rw [heb]; exact hx⟩
      · left; simpa using hx
    · obtain ⟨e, het, heq⟩ := h
      right
      exact ⟨e, het, by rw [← heq]; exact hx⟩

theorem pair_mem_gazCityPairs {g : Gazetteer} {r : GazRegion} {p : GazProvince}
    {c : GazCity} (hr : r ∈ g) (hpp : p ∈ r.provinceList)
    (hc : c ∈ p.municipalityList) : (c.name, p.name) ∈ gazCityPairs g := by
  unfold gazCityPairs
  rw [List.mem_flatMap]
  refine ⟨r, hr, ?_⟩
  rw [List.mem_flatMap]
  exact ⟨p, hpp, List.mem_map_of_mem _ hc⟩

theorem idxOK_same {g : Gazetteer} {idx idx' : LocationIndex}
    (hc : idx'.cityIndex = idx.cityIndex)
    (hb : idx'.barangayIndex = idx.barangayIndex) (h : idxOK g idx) :
    idxOK g idx' := by
  constructor
  · rw [hc]; exact h.1
  · rw [hb]; exact h.2

theorem idxOK_push_brgy {g : Gazetteer} {idx : LocationIndex} {k : Str}
    {u : AdminUnit} (h : idxOK g idx) (hp : (u.city, u.province) ∈ gazCityPairs g) :
    idxOK g { idx with barangayIndex := pushTbl idx.barangayIndex k u } := by
  refine ⟨h.1, ?_⟩
  intro e he x hx
  rcases pushTbl_mem he hx with h2 | ⟨e', he', hx'⟩
  · rw [h2]; exact hp
  · exact h.2 e' he' x hx'

theorem idxOK_push_city {g : Gazetteer} {idx : LocationIndex} {k : Str}
    {ci : CityInfo} (h : idxOK g idx) (hp : (ci.city, ci.province) ∈ gazCityPairs g) :
    idxOK g { idx with cityIndex := pushTbl idx.cityIndex k ci } := by
  refine ⟨?_, h.2⟩
  intro e he x hx
  rcases pushTbl_mem he hx with h2 | ⟨e', he', hx'⟩
  · rw [h2]; exact hp
  · exact h.1 e' he' x hx'

theorem idxOK_brgyAmbig {g : Gazetteer} {k : Str} {idx : LocationIndex}
    (h : idxOK g idx) : idxOK g (brgyAmbig k idx) := by
  unfold brgyAmbig
  split
  · split
    · exact idxOK_same rfl rfl h
    · exact h
  · exact h

theorem idxOK_cityAmbig {g : Gazetteer} {k : Str} {idx : LocationIndex}
    (h : idxOK g idx) : idxOK g (cityAmbig k idx) := by
  unfold cityAmbig
  split
  · split
    · exact idxOK_same rfl rfl h
    · exact h
  · exact h

theorem idxOK_addBarangay {g : Gazetteer} {rc rn pn cn : Str}
    {idx : LocationIndex} {b : Str} (h : idxOK g idx)
    (hp : (cn, pn) ∈ gazCityPairs g) : idxOK g (addBarangay rc rn pn cn idx b) := by
  unfold addBarangay
  apply idxOK_brgyAmbig
  unfold pushBrgy
  exact idxOK_push_brgy h hp

theorem idxOK_addCity {g : Gazetteer} {rc rn pn pk : Str} {idx : LocationIndex}
    {c : GazCity} (h : idxOK g idx) (hp : (c.name, pn) ∈ gazCityPairs g) :
    idxOK g (addCity rc rn pn pk idx c) := by
  unfold addCity
  apply foldl_pres (idxOK g)
  · apply idxOK_cityAmbig
    unfold pushCityInfo
    apply idxOK_push_city
    · unfold provAddCityName
      exact idxOK_same rfl rfl h
    · exact hp
  · intro b a _ hb
    exact idxOK_addBarangay hb hp

theorem idxOK_addProvince {g : Gazetteer} {rc rn : Str} {idx : LocationIndex}
    {p : GazProvince} (h : idxOK g idx)
    (hp : ∀ c ∈ p.municipalityList, (c.name, p.name) ∈ gazCityPairs g) :
    idxOK g (addProvince rc rn idx p) := by
  unfold addProvince
  apply foldl_pres (idxOK g)
  · unfold setProvinceInfo
    exact idxOK_same rfl rfl h
  · intro b a ha hb
    exact idxOK_addCity hb (hp a ha)

theorem idxOK_addRegion {g : Gazetteer} {idx : LocationIndex} {r : GazRegion}
    (h : idxOK g idx)
    (hr : ∀ p ∈ r.provinceList, ∀ c ∈ p.municipalityList,
      (c.name, p.name) ∈ gazCityPairs g) : idxOK g (addRegion idx r) := by
  unfold addRegion
  apply foldl_pres (idxOK g)
  · exact h
  · intro b p hp hb
    exact idxOK_addProvince hb (hr p hp)

theorem cityTableOK_applyAliases {g : Gazetteer} {t : Table (List CityInfo)}
    {as : List (Str × Str)} (h : cityTableOK g t) :
    cityTableOK g (applyAliases t as) := by
  unfold applyAliases
  apply foldl_pres (cityTableOK g)
  · exact h
  · intro tb a _ htb
    cases h1 : lookupTbl tb a.1 with
    | some _ => exact htb
    | none =>
      cases h2 : lookupTbl tb a.2 with
      | none => exact htb
      | some b =>
        intro e he x hx
        rw [List.mem_append] at he
        rcases he with he | he
        · exact htb e he x hx
        · rw [List.mem_singleton] at he
          obtain ⟨e', he', heq⟩ := lookupTbl_mem h2
          apply htb e' he' x
          rw [heq]
          rw [he] at hx
          exact hx

theorem cityTableOK_applyCommonAliases {g : Gazetteer} {t : Table (List CityInfo)}
    (h : cityTableOK g t) : cityTableOK g (applyCommonAliases t) := by
  unfold applyCommonAliases
  apply foldl_pres (cityTableOK g)
  · exact h
  · intro tb a _ htb
    cases h1 : lookupTbl tb (normalizeKey a.2) with
    | none => exact htb
    | some b =>
      intro e he x hx
      rcases setTbl_mem he with h2 | ⟨e', he', heq⟩
      · obtain ⟨e', he', heq⟩ := lookupTbl_mem h1
        apply htb e' he' x
        rw [heq]
        rw [h2] at hx
        exact hx
      · apply htb e' he' x
        rw [← heq]
        exact hx

section
attribute [local irreducible] applyCommonAliases applyAliases cityAliasesOf

theorem idxOK_addCityAliases {g : Gazetteer} {idx : LocationIndex}
    (h : idxOK g idx) : idxOK g (addCityAliases idx) := by
  unfold addCityAliases
  exact ⟨cityTableOK_applyCommonAliases (cityTableOK_applyAliases h.1), h.2⟩

end

theorem idxOK_buildIndexes (g : Gazetteer) : idxOK g (buildIndexes g) := by
  have hbase : idxOK g (g.foldl addRegion emptyIndex) := by
    apply foldl_pres (idxOK g)
    · constructor
      · intro e he
        simp [emptyIndex] at he
      · intro e he
        simp [emptyIndex] at he
    · intro b r hrg hb
      exact idxOK_addRegion hb
        (fun p hp c hc => pair_mem_gazCityPairs hrg hp hc)
  exact idxOK_addCityAliases hbase

theorem findBarangay_mem {idx : LocationIndex} {n : Str} {cc pc : Option Str}
    {u : AdminUnit} (h : findBarangay idx n cc pc = some u) :
    ∃ ms, lookupTbl idx.barangayIndex (normalizeKey n) = some ms ∧ u ∈ ms := by
  unfold findBarangay at h
  split at h
  next heq => exact Option.noConfusion h
  next ms heq =>
    refine ⟨ms, heq, ?_⟩
    split at h
    · exact Option.noConfusion h
    · split at h
      · exact head?_mem h
      · dsimp only [] at h
        split at h
        next m hm =>
          have h' : m = u := Option.some.inj h
          subst h'
          cases cc with
          | none => exact Option.noConfusion hm
          | some c => exact List.mem_of_find?_eq_some hm
        next hm =>
          split at h
          next m hm2 =>
            have h' : m = u := Option.some.inj h
            subst h'
            cases pc with
            | none => exact Option.noConfusion hm2
            | some p => exact List.mem_of_find?_eq_some hm2
          next hm2 => exact Option.noConfusion h

theorem findCity_mem {idx : LocationIndex} {n : Str} {pc : Option Str}
    {ci : CityInfo} (h : findCity idx n pc = some ci) :
    ∃ e ∈ idx.cityIndex, ci ∈ e.2 := by
  unfold findCity at h
  dsimp only [] at h
  split at h
  next heq => exact Option.noConfusion h
  next ms heq =>
    have hms : ∃ e ∈ idx.cityIndex, e.2 = ms := by
      split at heq
      next b hb =>
        have hb' : b = ms := Option.some.inj heq
        subst hb'
        split at hb
        next b2 hb2 =>
          have hb2' : b2 = b := Option.some.inj hb
          subst hb2'
          exact lookupTbl_mem hb2
        next hb2 =>
          split at hb
          · exact lookupTbl_mem hb
          · exact Option.noConfusion hb
      next hb =>
        split at heq
        · exact lookupTbl_mem heq
        · exact Option.noConfusion heq
    obtain ⟨e, he, hems⟩ := hms
    refine ⟨e, he, ?_⟩
    rw [hems]
    split at h
    · exact Option.noConfusion h
    · split at h
      · exact head?_mem h
      · split at h
        next m hm =>
          have h' : m = ci := Option.some.inj h
          subst h'
          cases pc with
          | none => exact Option.noConfusion hm
          | some p => exact List.mem_of_find?_eq_some hm
        next hm =>
          split at h
          next prov hpv =>
            split at h
            next m hm2 =>
              have h' : m = ci := Option.some.inj h
              subst h'
              exact List.mem_of_find?_eq_some hm2
            next hm2 => exact head?_mem h
          next hpv => exact head?_mem h

theorem findBarangay_pair {g : Gazetteer} {idx : LocationIndex} {n : Str}
    {cc pc : Option Str} {u : AdminUnit} (hok : idxOK g idx)
    (h : findBarangay idx n cc pc = some u) :
    (u.city, u.province) ∈ gazCityPairs g := by
  obtain ⟨ms, hl, hu⟩ := findBarangay_mem h
  obtain ⟨e, he, hems⟩ := lookupTbl_mem hl
  exact hok.2 e he u (by rw [hems]; exact hu)

theorem findCity_pair {g : Gazetteer} {idx : LocationIndex} {n : Str}
    {pc : Option Str} {ci : CityInfo} (hok : idxOK g idx)
    (h : findCity idx n pc = some ci) :
    (ci.city, ci.province) ∈ gazCityPairs g := by
  obtain ⟨e, he, hci⟩ := findCity_mem h
  exact hok.1 e he ci hci

theorem resolveCand_pair {g : Gazetteer} {idx : LocationIndex} {cand : CandV2}
    {r : LocRec} {s : Int} (hok : idxOK g idx)
    (h : resolveCand idx cand = some (r, s)) (hc : r.city ≠ []) :
    (r.city, r.province) ∈ gazCityPairs g := by
  unfold resolveCand at h
  split at h
  next name context =>
    split at h
    next u hf =>
      have h' : (toLocRec u, (8 : Int)) = (r, s) := Option.some.inj h
      have hr : toLocRec u = r := congrArg Prod.fst h'
      rw [← hr]
      exact findBarangay_pair hok hf
    next => exact Option.noConfusion h
  next name =>
    unfold resolveArea at h
    split at h
    · exact Option.noConfusion h
    · split at h
      next ci hf =>
        have h' : (({ region := ci.region, province := ci.province, city := ci.city, barangay := [] } : LocRec), (7 : Int)) = (r, s) := Option.some.inj h
        have hr : ({ region := ci.region, province := ci.province, city := ci.city, barangay := [] } : LocRec) = r := congrArg Prod.fst h'
        rw [← hr]
        exact findCity_pair hok hf
      next => exact Option.noConfusion h
  next first second third =>
    split at h
    next u hf =>
      have h' : (toLocRec u, (7 : Int)) = (r, s) := Option.some.inj h
      have hr : toLocRec u = r := congrArg Prod.fst h'
      rw [← hr]
      exact findBarangay_pair hok hf
    next => exact Option.noConfusion h
  next name =>
    dsimp only [] at h
    split at h
    next pi hp =>
      have h' : (({ region := pi.region, province := pi.province, city := [], barangay := [] } : LocRec), (4 : Int)) = (r, s) := Option.some.inj h
      have hr : ({ region := pi.region, province := pi.province, city := [], barangay := [] } : LocRec) = r := congrArg Prod.fst h'
      exact absurd (by rw [← hr]) hc
    next hp =>
      split at h
      next ci hf =>
        have h' : (({ region := ci.region, province := ci.province, city := ci.city, barangay := [] } : LocRec), (6 : Int)) = (r, s) := Option.some.inj h
        have hr : ({ region := ci.region, province := ci.province, city := ci.city, barangay := [] } : LocRec) = r := congrArg Prod.fst h'
        rw [← hr]
        exact findCity_pair hok hf
      next hf =>
        split at h
        next u hb =>
          split at h
          · have h' : (toLocRec u, (5 : Int)) = (r, s) := Option.some.inj h
            have hr : toLocRec u = r := congrArg Prod.fst h'
            rw [← hr]
            exact findBarangay_pair hok hb
          · exact Option.noConfusion h
        next hb => exact Option.noConfusion h

theorem stepV2_inv {g : Gazetteer} {idx : LocationIndex} {conf : Int}
    (hok : idxOK g idx) (acc : Option LocRec × Int) (cand : CandV2)
    (hacc : ∀ r' : LocRec, acc.1 = some r' → r'.city ≠ [] →
      (r'.city, r'.province) ∈ gazCityPairs g) :
    ∀ r' : LocRec, (stepV2 idx conf acc cand).1 = some r' → r'.city ≠ [] →
      (r'.city, r'.province) ∈ gazCityPairs g := by
  intro r' hr' hc
  unfold stepV2 at hr'
  split at hr'
  next rs hrs =>
    split at hr'
    · have h1 : rs.1 = r' := Option.some.inj hr'
      rw [← h1]
      rw [← h1] at hc
      exact resolveCand_pair hok hrs hc
    · exact hacc r' hr' hc
  next hrs => exact hacc r' hr' hc

/-- C1: consistency invariant of the V2 resolver over an index built by
`buildIndexes`: every non-null result whose city field is set (neither the
empty string nor the `"None"` sentinel) carries a (city, province) pair
that occurs in the raw gazetteer, so no result claims a city/province
combination absent from the hierarchy. -/
theorem resolver_city_province_consistent (g : Gazetteer)
    (cands : List CandV2) (text : Str) (conf : Int) (r : LocRec)
    (h : findBestMatchV2 (buildIndexes g) cands text conf = some r)
    (hcity : r.city ≠ []) (_hnone : r.city ≠ ("None").toList) :
    (r.city, r.province) ∈ gazCityPairs g := by
  have hok : idxOK g (buildIndexes g) := idxOK_buildIndexes g
  unfold findBestMatchV2 at h
  dsimp only [] at h
  split at h
  · exact Option.noConfusion h
  · have hinv := foldl_pres
      (fun acc : Option LocRec × Int =>
        ∀ r' : LocRec, acc.1 = some r' → r'.city ≠ [] →
          (r'.city, r'.province) ∈ gazCityPairs g)
      (stepV2 (buildIndexes g) conf) cands (none, 0)
      (fun r' hr' _ => Option.noConfusion hr')
      (fun b a _ hb => stepV2_inv hok b a hb)
    exact hinv r h hcity

theorem resolver_city_province_consistent_witness :
    (findBestMatchV2 (buildIndexes demoGaz) [CandV2.area (("Alphaville").toList)] [] 0 =
        some demoAreaResult ∧
      demoAreaResult.city ≠ [] ∧ demoAreaResult.city ≠ ("None").toList) ∧
    (demoAreaResult.city, demoAreaResult.province) ∈ gazCityPairs demoGaz :=
  ⟨⟨by decide, by decide, by decide⟩,
    resolver_city_province_consistent demoGaz [CandV2.area (("Alphaville").toList)]
      [] 0 demoAreaResult (by decide) (by decide) (by decide)⟩
